import Mathlib

/-!
# Contrarian Brief: collection store, ingestion loop and aggregation

A shallow embedding of the client logic of `src/app/page.jsx`
(`addPost`, `updatePost`, `deletePost`, `AddPost.handleSubmit`, the `exists`
check and loop of `fetchRssPosts`, `getDateRange`, `getThemeStats`,
`classifyPost`, `generateReport`), of the handlers of
`src/app/api/ai/classify/route.js`, `src/app/api/ai/report/route.js`,
`src/app/api/cron/route.js` and `src/app/api/rss/route.js`, and of the item
mapping of `src/services/rssFetcher.js`, together with the statements settled
about them.

Conventions of the embedding.

* A JavaScript property holding a string or being absent (`undefined`) is an
  `Option String`; `===` on two such values is equality of `Option String`
  (so `undefined === undefined` holds, and `"" === undefined` does not).
* `x || d` on such a value picks `d` when `x` is absent or the empty string.
* A call that may throw returns an `Outcome`; a function without `throw` whose
  callees cannot throw on well-formed arguments is a total function.
* A plain object used as a map is the list of its own properties in order of
  creation; reads fall back to the properties inherited from `Object.prototype`.
* React state is passed explicitly.  A closure created during a render sees the
  value of `posts` of that render; `setPosts` changes the state that the next
  render will see, not the binding held by a closure that is already running.
-/

namespace ContrarianBrief

/-! ## Data model -/

/-- A stored post: the fields written by `AddPost.handleSubmit`, by
`fetchRssPosts` and by `addPost`. -/
structure Post where
  id : Option String := none
  addedAt : Option String := none
  source : Option String := none
  title : Option String := none
  content : Option String := none
  url : Option String := none
  publishedDate : Option String := none
  theme : Option String := none
  keyInsight : Option String := none
  deriving DecidableEq, Repr

/-- One element of `data.posts` as received from `/api/rss`. -/
structure FeedItem where
  title : Option String := none
  link : Option String := none
  pubDate : Option String := none
  author : Option String := none
  snippet : Option String := none
  content : Option String := none
  deriving DecidableEq, Repr

/-- The object returned by `classifyPost`. -/
structure Classification where
  theme : Option String := none
  keyInsight : Option String := none
  tags : List String := []
  deriving DecidableEq, Repr

/-- JavaScript truthiness of a string-or-undefined value. -/
def truthy : Option String → Bool
  | some s => s != ""
  | none => false

/-- The expression `x || d` for a string-or-undefined `x` and a string `d`. -/
def orElse (x : Option String) (d : String) : String :=
  match x with
  | some s => if s = "" then d else s
  | none => d

/-- The expression `x || y` for two string-or-undefined values. -/
def orOpt (x y : Option String) : Option String :=
  if truthy x then x else y

/-! ## Clock -/

/-- Decimal digits of `n`, left-padded with zeros to `w` characters. -/
def pad (w n : Nat) : String :=
  let s := toString n
  String.mk (List.replicate (w - s.length) '0') ++ s

/-- Calendar date (year, month, day) of a day count since 1970-01-01. -/
def civilFromDays (days : Nat) : Nat × Nat × Nat :=
  let z := days + 719468
  let era := z / 146097
  let doe := z % 146097
  let yoe := (doe - doe / 1460 + doe / 36524 - doe / 146096) / 365
  let doy := doe - (365 * yoe + yoe / 4 - yoe / 100)
  let mp := (5 * doy + 2) / 153
  let d := doy - (153 * mp + 2) / 5 + 1
  let m := if mp < 10 then mp + 3 else mp - 9
  let y := yoe + era * 400 + (if m ≤ 2 then 1 else 0)
  (y, m, d)

/-- The method `Date.prototype.toISOString` for a time value `ms ≥ 0`
(milliseconds since the epoch). -/
def toISOString (ms : Nat) : String :=
  let (y, m, d) := civilFromDays (ms / 86400000)
  let r := ms % 86400000
  let year := if y ≤ 9999 then pad 4 y else "+" ++ pad 6 y
  year ++ "-" ++ pad 2 m ++ "-" ++ pad 2 d ++ "T" ++ pad 2 (r / 3600000) ++ ":" ++
    pad 2 (r / 60000 % 60) ++ ":" ++ pad 2 (r / 1000 % 60) ++ "." ++ pad 3 (r % 1000) ++ "Z"

/-! ## Collection store -/

/-- The function `addPost` (page.jsx 59-68).  `posts` is the value of the state
variable captured by the closure, `tId` the reading of `Date.now()` and `tAt`
the reading of `new Date()`.  The result is the list handed to `savePosts`,
which becomes the new state and the stored blob. -/
def addPost (posts : List Post) (tId tAt : Nat) (post : Post) : List Post :=
  { post with id := some (toString tId), addedAt := some (toISOString tAt) } :: posts

/-- The test `posts.some(p => p.url === post.link || p.title === post.title)`
of `fetchRssPosts` (page.jsx 272). -/
def existsCheck (posts : List Post) (post : FeedItem) : Bool :=
  posts.any fun p => decide (p.url = post.link) || decide (p.title = post.title)

/-! ## Ingestion loop -/

/-- What one run of `fetchRssPosts` has done so far. -/
structure IngestState where
  /-- Latest list handed to `savePosts`: the React state and the stored blob. -/
  collection : List Post
  /-- The loop counter `addedCount`. -/
  addedCount : Nat
  /-- Feed items for which `onClassify` and `onAdd` were called, in call order. -/
  processed : List FeedItem
  deriving DecidableEq, Repr

/-- The argument that `fetchRssPosts` passes to `onAdd` (page.jsx 277-285). -/
def candidate (post : FeedItem) (classification : Classification) : Post :=
  { source := some "Substack"
    title := post.title
    content := post.content
    url := post.link
    publishedDate := post.pubDate
    theme := some (orElse classification.theme "Other")
    keyInsight := some (orElse classification.keyInsight "") }

/-- One iteration of the `for` loop of `fetchRssPosts` (page.jsx 270-288).

`posts` is the prop of the `Dashboard` render whose handler is running, and
`onAdd` is the `addPost` closure of that same render of `ContrarianBrief`, whose
`posts` is the same value: both stay fixed for the whole run.  `clock k` gives
the two clock readings taken by the `k`-th call of `onAdd`. -/
def ingestStep (posts : List Post) (onClassify : Option String → Option String → Classification)
    (clock : Nat → Nat × Nat) (st : IngestState) (post : FeedItem) : IngestState :=
  if existsCheck posts post then st
  else
    let classification := onClassify post.title post.content
    { collection :=
        addPost posts (clock st.addedCount).1 (clock st.addedCount).2
          (candidate post classification)
      addedCount := st.addedCount + 1
      processed := st.processed ++ [post] }

/-- The loop of `fetchRssPosts` over `data.posts` (page.jsx 267-288), started
from the collection `posts` of the render that created the handler. -/
def fetchRssPosts (posts : List Post)
    (onClassify : Option String → Option String → Classification)
    (clock : Nat → Nat × Nat) (dataPosts : List FeedItem) : IngestState :=
  dataPosts.foldl (ingestStep posts onClassify clock)
    { collection := posts, addedCount := 0, processed := [] }

/-- The fallback value of `classifyPost` (page.jsx 128). -/
def fallbackClassification : Classification :=
  { theme := some "Other", keyInsight := some "", tags := [] }

/-- The duplicate test in the words of the specification: some stored post has a
`url` equal to the candidate's link with both non-empty, or an equal `title`. -/
def specExists (posts : List Post) (post : FeedItem) : Bool :=
  posts.any fun p =>
    (decide (p.url = post.link) && truthy p.url && truthy post.link) ||
      decide (p.title = post.title)

/-! ## Aggregation: date range -/

/-- UTF-16 code units of a string: the sequence compared by the default
`Array.prototype.sort`. -/
def utf16Units (s : String) : List Nat :=
  s.toList.flatMap fun c =>
    if c.toNat < 65536 then [c.toNat]
    else [55296 + (c.toNat - 65536) / 1024, 56320 + (c.toNat - 65536) % 1024]

/-- Lexicographic `≤` on sequences of code units. -/
def unitsLe : List Nat → List Nat → Bool
  | [], _ => true
  | _ :: _, [] => false
  | a :: as, b :: bs => a < b || (a == b && unitsLe as bs)

/-- The order used by `dates.sort()` when no comparator is given: strings are
compared as sequences of UTF-16 code units. -/
def defaultSortLe (a b : String) : Prop :=
  unitsLe (utf16Units a) (utf16Units b) = true

instance : DecidableRel defaultSortLe := fun a b =>
  inferInstanceAs (Decidable (unitsLe (utf16Units a) (utf16Units b) = true))

/-- The array `dates` of `getDateRange` before sorting:
`items.map((p) => p.publishedDate || p.addedAt).filter(Boolean)`. -/
def postDates (items : List Post) : List String :=
  items.filterMap fun p =>
    match orOpt p.publishedDate p.addedAt with
    | some d => if d = "" then none else some d
    | none => none

/-- The function `getDateRange` (page.jsx 132-145).  `fmt` is the local function
`(d) => new Date(d).toLocaleDateString("en-US", { month: "short", year: "numeric" })`,
whose value depends on the host (date parser, time zone). -/
def getDateRange (fmt : String → String) (items : List Post) : String :=
  if items.length = 0 then "N/A"
  else
    let dates := (postDates items).insertionSort defaultSortLe
    if dates.length = 0 then "N/A"
    else fmt (dates.headD "") ++ " – " ++ fmt (dates.getLastD "")

/-- Day count since 1970-01-01 of a calendar date from 1970 on. -/
def daysFromCivil (y m d : Nat) : Nat :=
  let y1 := if m ≤ 2 then y - 1 else y
  let era := y1 / 400
  let yoe := y1 % 400
  let mp := if m > 2 then m - 3 else m + 9
  let doy := (153 * mp + 2) / 5 + d - 1
  let doe := yoe * 365 + yoe / 4 - yoe / 100 + doy
  era * 146097 + doe - 719468

/-- English short month names, as printed by the `en-US` locale. -/
def monthNames : List String :=
  ["Jan", "Feb", "Mar", "Apr", "May", "Jun", "Jul", "Aug", "Sep", "Oct", "Nov", "Dec"]

/-- Number (1-12) of a short month name. -/
def monthNumber (name : String) : Option Nat :=
  match monthNames.indexOf name with
  | 12 => none
  | i => some (i + 1)

/-- Milliseconds since the epoch of a UTC date and time of day. -/
def utcMillis (y m d hh mm ss ms : Nat) : Option Nat :=
  if 1970 ≤ y ∧ 1 ≤ m ∧ m ≤ 12 ∧ 1 ≤ d ∧ d ≤ 31 ∧ hh < 24 ∧ mm < 60 ∧ ss < 60 ∧ ms < 1000 then
    some (daysFromCivil y m d * 86400000 + hh * 3600000 + mm * 60000 + ss * 1000 + ms)
  else none

/-- Value of a non-empty run of decimal digits. -/
def digitsValue (cs : List Char) : Option Nat :=
  if cs = [] then none
  else cs.foldl
    (fun acc c => acc.bind fun n =>
      if 48 ≤ c.toNat ∧ c.toNat ≤ 57 then some (10 * n + (c.toNat - 48)) else none)
    (some 0)

/-- The time value of `new Date(d)` for the three shapes of date text that the
program stores: the output of `toISOString` (`2024-03-01T10:00:00.000Z`), the
value of a date input (`2024-03-01`, read as UTC midnight) and an RSS `pubDate`
in GMT (`Fri, 01 Mar 2024 10:00:00 GMT`).  Any other text is mapped to `none`
here, although an engine may accept more. -/
def dateParse (d : String) : Option Nat :=
  let num (a b : Nat) : Option Nat :=
    let t := (d.toList.drop a).take b
    if t.length = b then digitsValue t else none
  let lit (a : Nat) (c : Char) : Bool := d.toList.get? a == some c
  if d.length = 24 ∧ lit 4 '-' ∧ lit 7 '-' ∧ lit 10 'T' ∧ lit 13 ':' ∧ lit 16 ':' ∧
      lit 19 '.' ∧ lit 23 'Z' then do
    utcMillis (← num 0 4) (← num 5 2) (← num 8 2) (← num 11 2) (← num 14 2) (← num 17 2)
      (← num 20 3)
  else if d.length = 10 ∧ lit 4 '-' ∧ lit 7 '-' then do
    utcMillis (← num 0 4) (← num 5 2) (← num 8 2) 0 0 0 0
  else if d.length = 29 ∧ lit 3 ',' ∧ lit 4 ' ' ∧ lit 7 ' ' ∧ lit 11 ' ' ∧ lit 16 ' ' ∧
      lit 19 ':' ∧ lit 22 ':' ∧ (d.toList.drop 25 == " GMT".toList) then do
    utcMillis (← num 12 4) (← monthNumber (String.mk ((d.toList.drop 8).take 3)))
      (← num 5 2) (← num 17 2) (← num 20 2) (← num 23 2) 0
  else none

/-- The local function `fmt` of `getDateRange` on a host whose time zone is UTC:
short month name and year of the parsed date, `Invalid Date` when the text does
not parse. -/
def fmtMonthYear (d : String) : String :=
  match dateParse d with
  | some ms =>
    let (y, m, _) := civilFromDays (ms / 86400000)
    monthNames.getD (m - 1) "" ++ " " ++ toString y
  | none => "Invalid Date"

/-- The date range in the words of the specification: the formatted
chronologically earliest and latest of the posts' dates, where `time` gives the
instant a date text denotes. -/
def specDateRange (time : String → Option Nat) (fmt : String → String)
    (items : List Post) : String :=
  let dates := (postDates items).insertionSort fun a b => (time a).getD 0 ≤ (time b).getD 0
  if dates.length = 0 then "N/A"
  else fmt (dates.headD "") ++ " – " ++ fmt (dates.getLastD "")

/-! ## Aggregation: theme statistics -/

/-- Value held by an own property of the object `stats` of `getThemeStats`:
a number, or a string that does not denote a number (what `+ 1` yields when
its left operand is not a number). -/
inductive StatValue where
  | num (n : Nat)
  | text
  deriving DecidableEq, Repr

/-- An own property of `stats`: key and value. -/
abbrev Entry := String × StatValue

/-- Names of the function-valued properties that an object literal inherits
from `Object.prototype`. -/
def protoFunctions : List String :=
  ["constructor", "hasOwnProperty", "isPrototypeOf", "propertyIsEnumerable",
    "toLocaleString", "toString", "valueOf", "__defineGetter__", "__defineSetter__",
    "__lookupGetter__", "__lookupSetter__"]

/-- Names of all properties that an object literal inherits: the functions of
`Object.prototype` and the accessor `__proto__`. -/
def protoNames : List String := "__proto__" :: protoFunctions

/-- The expression `(v || 0) + 1` for the value `v` of an own property. -/
def bumpValue : StatValue → StatValue
  | .num n => .num (n + 1)
  | .text => .text

/-- The statement `stats[t] = (stats[t] || 0) + 1` (page.jsx 151) on the own
properties of `stats`, kept in order of creation.

* `t` is an own property: its value is replaced in place.
* `t` is `__proto__`: the read yields the prototype object, the sum is a string,
  and the inherited setter ignores a string, so no property is created.
* `t` names an inherited function: the read yields that function, the sum is a
  string, and the assignment creates an own property holding it.
* otherwise the read yields `undefined` and an own property with value 1 is
  created. -/
def bump (stats : List Entry) (t : String) : List Entry :=
  match stats.lookup t with
  | some _ => stats.map fun e => if e.1 = t then (e.1, bumpValue e.2) else e
  | none =>
    if t = "__proto__" then stats
    else if t ∈ protoFunctions then stats ++ [(t, .text)]
    else stats ++ [(t, .num 1)]

/-- The numeric value of a key that is an array index: a canonical decimal
numeral below `2^32 - 1`. -/
def arrayIndex (key : String) : Option Nat :=
  match digitsValue key.toList with
  | some n => if toString n = key ∧ n < 4294967295 then some n else none
  | none => none

/-- The array `Object.entries(stats)`: own properties whose key is an array
index first, in ascending numeric order, then the others in order of creation. -/
def objectEntries (stats : List Entry) : List Entry :=
  (stats.filter fun e => (arrayIndex e.1).isSome).insertionSort
      (fun a b => (arrayIndex a.1).getD 0 ≤ (arrayIndex b.1).getD 0) ++
    stats.filter fun e => (arrayIndex e.1).isNone

/-- The order induced by the comparator `(a, b) => b[1] - a[1]`: `a` may stay
before `b` when the difference is not positive.  A non-numeric value makes the
difference `NaN`, which `sort` reads as 0. -/
def countOrder (a b : Entry) : Prop :=
  match a.2, b.2 with
  | .num x, .num y => y ≤ x
  | _, _ => True

instance : DecidableRel countOrder := fun a b => by
  unfold countOrder
  split <;> infer_instance

/-- The theme under which `getThemeStats` counts a post: `p.theme || "Other"`. -/
def themeOf (p : Post) : String := orElse p.theme "Other"

/-- The function `getThemeStats` (page.jsx 147-154) applied to the state
`posts`: the tally, its entries, sorted by the stable `Array.prototype.sort`.
With numeric values only the comparator is consistent and the result is the
unique stable arrangement; otherwise the arrangement is left to the engine and
the one computed here is that of a stable insertion sort. -/
def getThemeStats (posts : List Post) : List Entry :=
  (objectEntries ((posts.map themeOf).foldl bump [])).insertionSort countOrder

/-- The count printed for an entry; a non-numeric value counts as nothing. -/
def countOf (e : Entry) : Nat :=
  match e.2 with
  | .num n => n
  | .text => 0

/-- Themes in order of first encounter, each once. -/
def firstSeen : List String → List String
  | [] => []
  | t :: ts => t :: (firstSeen ts).filter fun s => s ≠ t

/-- The order of `Object.entries` on two distinct keys of an object whose
non-index keys were created in the order of first occurrence in `themes`. -/
def entryBefore (themes : List String) (s t : String) : Prop :=
  match arrayIndex s, arrayIndex t with
  | some i, some j => i < j
  | some _, none => True
  | none, some _ => False
  | none, none => themes.indexOf s < themes.indexOf t

/-- The tally in closed form: one entry per theme, in order of first encounter,
holding the number of occurrences of the theme. -/
def tallyOf (l : List String) : List Entry :=
  (firstSeen l).map fun k => (k, StatValue.num (l.count k))

/-! ## Collection store: update, delete, manual entry -/

/-- How a call ends: it returns a value or it throws. -/
inductive Outcome (α : Type) where
  | returned (value : α)
  | threw (error : String)
  deriving DecidableEq, Repr

/-- The argument `updates` of `updatePost`: for each field, `none` when the
object does not name it and `some v` when it names it with value `v`. -/
structure Updates where
  id : Option (Option String) := none
  addedAt : Option (Option String) := none
  source : Option (Option String) := none
  title : Option (Option String) := none
  content : Option (Option String) := none
  url : Option (Option String) := none
  publishedDate : Option (Option String) := none
  theme : Option (Option String) := none
  keyInsight : Option (Option String) := none
  deriving DecidableEq, Repr

/-- The object `{ ...p, ...updates }`: every field named by `updates` takes
its value from there, the others keep the value of `p`. -/
def merge (p : Post) (updates : Updates) : Post :=
  { id := updates.id.getD p.id
    addedAt := updates.addedAt.getD p.addedAt
    source := updates.source.getD p.source
    title := updates.title.getD p.title
    content := updates.content.getD p.content
    url := updates.url.getD p.url
    publishedDate := updates.publishedDate.getD p.publishedDate
    theme := updates.theme.getD p.theme
    keyInsight := updates.keyInsight.getD p.keyInsight }

/-- The function `updatePost` (page.jsx 75-79): the list handed to `savePosts`. -/
def updatePost (posts : List Post) (id : Option String) (updates : Updates) : List Post :=
  posts.map fun p => if p.id = id then merge p updates else p

/-- The function `deletePost` (page.jsx 70-73): the list handed to `savePosts`. -/
def deletePost (posts : List Post) (id : Option String) : List Post :=
  posts.filter fun p => decide (p.id ≠ id)

/-- The object that `EditInline` hands to `onSave` (page.jsx 708):
`{ theme, keyInsight }`. -/
def editUpdates (theme keyInsight : String) : Updates :=
  { theme := some (some theme), keyInsight := some (some keyInsight) }

/-- How a call of `addPost` ends.  The body has no `throw`, and `savePosts`
catches what the storage write may throw, so the call returns. -/
def addPostCall (posts : List Post) (tId tAt : Nat) (post : Post) : Outcome (List Post) :=
  .returned (addPost posts tId tAt post)

/-- How a call of `updatePost` ends: the body has no `throw`, the call returns
whether or not a post carries the id. -/
def updatePostCall (posts : List Post) (id : Option String) (updates : Updates) :
    Outcome (List Post) :=
  .returned (updatePost posts id updates)

/-- How a call of `deletePost` ends: the body has no `throw`, the call returns. -/
def deletePostCall (posts : List Post) (id : Option String) : Outcome (List Post) :=
  .returned (deletePost posts id)

/-- The state of the form `AddPost` (page.jsx 420-426). -/
structure AddForm where
  source : String := "Substack"
  title : String := ""
  content : String := ""
  url : String := ""
  publishedDate : String := ""
  theme : String := ""
  keyInsight : String := ""
  deriving DecidableEq, Repr

/-- The handler `AddPost.handleSubmit` (page.jsx 438-448).  With an empty
title it returns before calling `onAdd`; the collection stays `posts`.
Otherwise it calls `onAdd` (that is `addPost`) with the form's fields, the date
falling back to the reading `tPub` of `new Date()`. -/
def handleSubmit (posts : List Post) (form : AddForm) (tPub tId tAt : Nat) :
    Outcome (List Post) :=
  if form.title = "" then .returned posts
  else
    addPostCall posts tId tAt
      { source := some form.source
        title := some form.title
        content := some form.content
        url := some form.url
        publishedDate :=
          some (if form.publishedDate = "" then toISOString tPub else form.publishedDate)
        theme := some (if form.theme = "" then "Other" else form.theme)
        keyInsight := some form.keyInsight }

/-- One call of `addPost`: its clock readings and its argument. -/
structure AddCall where
  tId : Nat
  tAt : Nat
  post : Post
  deriving DecidableEq, Repr

/-- A sequence of `addPost` calls, each made by the closure of the render that
follows the previous call, so that each sees the collection left by the one
before. -/
def addPosts (posts : List Post) (calls : List AddCall) : List Post :=
  calls.foldl (fun acc k => addPost acc k.tId k.tAt k.post) posts

/-! ## Report endpoint: grouping by theme -/

/-- An own property of the object `themeGroups`: theme and posts pushed so far. -/
abbrev Group := String × List Post

/-- The body of the `forEach` of the report endpoint (route.js 21-25):
`if (!themeGroups[t]) themeGroups[t] = []; themeGroups[t].push(p)` on the own
properties of `themeGroups`, kept in order of creation.

* `t` is an own property: it holds an array, `p` is pushed onto it.
* `t` names a property inherited from `Object.prototype`: the read yields a
  function (or the prototype object), which is truthy, so no array is created,
  and `push` of that value is `undefined`: the call throws a `TypeError`.
* otherwise an own property holding `[p]` is created. -/
def pushGroup (groups : List Group) (p : Post) : Outcome (List Group) :=
  match groups.lookup (themeOf p) with
  | some _ =>
    .returned (groups.map fun g => if g.1 = themeOf p then (g.1, g.2 ++ [p]) else g)
  | none =>
    if themeOf p ∈ protoNames then .threw "TypeError: themeGroups[t].push is not a function"
    else .returned (groups ++ [(themeOf p, [p])])

/-- The loop `posts.forEach(...)` of the report endpoint, started from the
own properties `groups`; a throw ends it. -/
def buildThemeGroups : List Group → List Post → Outcome (List Group)
  | groups, [] => .returned groups
  | groups, p :: ps =>
    match pushGroup groups p with
    | .returned next => buildThemeGroups next ps
    | .threw e => .threw e

/-- The grouping in closed form: one group per theme, in order of first
encounter, holding the posts of that theme in their original order. -/
def groupsOf (posts : List Post) : List Group :=
  (firstSeen (posts.map themeOf)).map fun k => (k, posts.filter fun q => themeOf q = k)

/-- The counts printed in the digest headers, `items.length` for each group. -/
def groupSizes (groups : List Group) : List Nat :=
  groups.map fun g => g.2.length

/-! ## Classification endpoint and client -/

/-- A JSON body exchanged with `/api/ai/classify`, over a type `J` of parsed
JSON values: the object `{ error }`, an object literal
`{ theme, keyInsight, tags }` written in the code, or the value produced by
`JSON.parse`. -/
inductive ClassifyBody (J : Type) where
  | error (message : String)
  | literal (c : Classification)
  | parsed (value : J)
  deriving DecidableEq, Repr

/-- The body `{ title, content }` of a classification request. -/
structure ClassifyRequest where
  title : Option String := none
  content : Option String := none
  deriving DecidableEq, Repr

/-- What the request to the upstream model comes to: `failed` when `fetch`
rejects, the status is not OK or the body cannot be read; otherwise the value
of `data.content?.[0]?.text`. -/
inductive Upstream where
  | failed
  | answered (text : Option String)
  deriving DecidableEq, Repr

/-- The answer of the classification endpoint, with the number of requests it
made upstream. -/
structure ClassifyResponse (J : Type) where
  status : Nat
  body : ClassifyBody J
  upstreamCalls : Nat
  deriving DecidableEq, Repr

/-- White space and line terminators, the characters removed by
`String.prototype.trim`. -/
def isJsWhitespace (c : Char) : Bool :=
  c.toNat ∈ [9, 10, 11, 12, 13, 32, 160, 5760, 8232, 8233, 8239, 8287, 12288, 65279] ||
    (8192 ≤ c.toNat && c.toNat ≤ 8202)

/-- The method `trim` on the characters of a string. -/
def trimChars (cs : List Char) : List Char :=
  (cs.dropWhile isJsWhitespace).rdropWhile isJsWhitespace

/-- The scan of `text.replace(/```json|```/g, "")`: at each position the
alternative "```json" is tried before "```"; a match is skipped, any other
character is kept.  `skip` counts the characters of a match still to skip. -/
def stripFences : Nat → List Char → List Char
  | _, [] => []
  | skip + 1, _ :: cs => stripFences skip cs
  | 0, c :: cs =>
    if "```json".toList.isPrefixOf (c :: cs) then stripFences 6 cs
    else if "```".toList.isPrefixOf (c :: cs) then stripFences 2 cs
    else c :: stripFences 0 cs

/-- The expression `text.replace(/```json|```/g, "").trim()` (route.js 55). -/
def clean (text : String) : String :=
  String.mk (trimChars (stripFences 0 text.toList))

/-- The object sent by the `catch` branch of the classification endpoint. -/
def errorClassification : Classification :=
  { theme := some "Other", keyInsight := some "Error classifying content", tags := [] }

/-- The object sent by the classification endpoint without a credential. -/
def missingKeyClassification : Classification :=
  { theme := some "Other", keyInsight := some "API Key missing", tags := [] }

/-- The handler `POST` of `/api/ai/classify` (route.js 3-66).  `parse` is
`JSON.parse`, `apiKey` the environment variable, `req` the request body
(`none` when it cannot be read), `upstream` what the upstream request comes to
if it is made. -/
def classifyPOST {J : Type} (parse : String → Option J) (apiKey : Option String)
    (req : Option ClassifyRequest) (upstream : Upstream) : ClassifyResponse J :=
  match req with
  | none => { status := 500, body := .literal errorClassification, upstreamCalls := 0 }
  | some r =>
    if !truthy r.title && !truthy r.content then
      { status := 400, body := .error "Missing title or content", upstreamCalls := 0 }
    else if !truthy apiKey then
      { status := 500, body := .literal missingKeyClassification, upstreamCalls := 0 }
    else
      match upstream with
      | .failed => { status := 500, body := .literal errorClassification, upstreamCalls := 1 }
      | .answered text =>
        match parse (clean (orElse text "")) with
        | some result => { status := 200, body := .parsed result, upstreamCalls := 1 }
        | none => { status := 500, body := .literal errorClassification, upstreamCalls := 1 }

/-- What `fetch("/api/ai/classify", ...)` comes to in the client: a rejection,
or a response with its status and its body (`none` when it is not JSON). -/
inductive ClientFetch (J : Type) where
  | rejected
  | responded (status : Nat) (body : Option (ClassifyBody J))
  deriving DecidableEq, Repr

/-- The function `classifyPost` of the client (page.jsx 115-130): the parsed
body of an OK response, the fallback in every other case. -/
def classifyPost {J : Type} (fetched : ClientFetch J) : ClassifyBody J :=
  match fetched with
  | .rejected => .literal fallbackClassification
  | .responded status body =>
    if 200 ≤ status ∧ status ≤ 299 then
      match body with
      | some result => result
      | none => .literal fallbackClassification
    else .literal fallbackClassification

/-- The client calling the endpoint: `classifyPost` on the endpoint's answer. -/
def classifyViaEndpoint {J : Type} (parse : String → Option J) (apiKey : Option String)
    (req : ClassifyRequest) (upstream : Upstream) : ClassifyBody J :=
  classifyPost
    (.responded (classifyPOST parse apiKey (some req) upstream).status
      (some (classifyPOST parse apiKey (some req) upstream).body))

/-- No match of the pattern starts inside `q` when `q` is followed by `s`. -/
def FenceFree (q s : List Char) : Prop :=
  ∀ r, r ≠ [] → r <:+ q → ¬ "```".toList <+: (r ++ s)

/-! ## Classification endpoint: the prompt -/

/-- The method `substring(a, b)` for `a ≤ b`, on UTF-16 code units. -/
def substringUnits (s : String) (a b : Nat) : List Nat :=
  ((utf16Units s).drop a).take (b - a)

/-- The text of a string-or-undefined value inside a template literal. -/
def templateText (x : Option String) : String :=
  x.getD "undefined"

/-- The prompt of the classification endpoint up to the title (route.js 32-34). -/
def promptHead : String :=
  "Classify this content and extract the key insight.\n\nTitle: "

/-- The prompt between the title and the content (route.js 34-35). -/
def promptMiddle : String := "\nContent: "

/-- The prompt after the content (route.js 35-38). -/
def promptTail : String :=
  "\n\nRespond ONLY in this exact JSON format, no other text:\n" ++
  "\x7b\"theme\": \"one of: AI Infrastructure, Korean Diaspora, Korean VC Ecosystem, " ++
  "Demographics & Aging, Consumer Tech, Founder Intelligence, Regulatory & Policy, " ++
  "Global Macro, Other\", \"keyInsight\": \"one sentence capturing the core contrarian " ++
  "or unique insight\", \"tags\": [\"tag1\", \"tag2\"]\x7d"

/-- The code units that the expression `content?.substring(0, 1000)` puts into
the prompt: the first 1000 units of a string, the text `undefined` when the
request has no content. -/
def promptContent (content : Option String) : List Nat :=
  match content with
  | some s => substringUnits s 0 1000
  | none => utf16Units "undefined"

/-- The message sent upstream by the classification endpoint (route.js 32-38),
as UTF-16 code units. -/
def classifyPrompt (title content : Option String) : List Nat :=
  utf16Units promptHead ++ utf16Units (templateText title) ++ utf16Units promptMiddle ++
    promptContent content ++ utf16Units promptTail

/-- The prompt of the upstream request made by the handler of
`/api/ai/classify`, `none` when the handler makes no upstream request. -/
def classifyUpstreamPrompt (apiKey : Option String) (req : Option ClassifyRequest) :
    Option (List Nat) :=
  match req with
  | none => none
  | some r =>
    if !truthy r.title && !truthy r.content then none
    else if !truthy apiKey then none
    else some (classifyPrompt r.title r.content)

/-! ## Report endpoint and client -/

/-- The body `{ posts, dateRange }` of a report request. -/
structure ReportRequest where
  posts : Option (List Post) := none
  dateRange : Option String := none
  deriving DecidableEq, Repr

/-- A JSON body sent by `/api/ai/report`: `{ error }` or `{ reportText }`,
whose text is absent when the upstream answer has no content. -/
inductive ReportBody where
  | error (message : String)
  | report (reportText : Option String)
  deriving DecidableEq, Repr

/-- What the request to the upstream model comes to, for the report endpoint:
`failed` when `fetch` rejects, the status is not OK or the body cannot be read;
otherwise the texts of the blocks of `data.content` (`none` when the answer has
no `content`). -/
inductive ReportUpstream where
  | failed
  | answered (content : Option (List (Option String)))
  deriving DecidableEq, Repr

/-- The answer of the report endpoint, with the number of requests it made
upstream. -/
structure ReportResponse where
  status : Nat
  body : ReportBody
  upstreamCalls : Nat
  deriving DecidableEq, Repr

/-- The expression
`data.content?.map((c) => c.text || "").filter(Boolean).join("\n")`. -/
def joinBlocks (content : Option (List (Option String))) : Option String :=
  content.map fun blocks =>
    "\n".intercalate ((blocks.map fun t => orElse t "").filter fun t => t ≠ "")

/-- The handler `POST` of `/api/ai/report` (route.js 3-92); the wording of the
digest sent upstream is left out.  `req` is the request body (`none` when it
cannot be read), `upstream` what the upstream request comes to if it is made. -/
def reportPOST (apiKey : Option String) (req : Option ReportRequest)
    (upstream : ReportUpstream) : ReportResponse :=
  match req with
  | none =>
    { status := 500, body := .report (some "Failed to generate report"), upstreamCalls := 0 }
  | some r =>
    match r.posts with
    | none => { status := 400, body := .error "No posts provided", upstreamCalls := 0 }
    | some [] => { status := 400, body := .error "No posts provided", upstreamCalls := 0 }
    | some (p :: ps) =>
      if !truthy apiKey then
        { status := 500, body := .report (some "System Error: Missing API Key"),
          upstreamCalls := 0 }
      else
        match buildThemeGroups [] (p :: ps) with
        | .threw _ =>
          { status := 500, body := .report (some "Failed to generate report"),
            upstreamCalls := 0 }
        | .returned _ =>
          match upstream with
          | .failed =>
            { status := 500, body := .report (some "Failed to generate report"),
              upstreamCalls := 1 }
          | .answered content =>
            { status := 200, body := .report (joinBlocks content), upstreamCalls := 1 }

/-- The stored report draft (page.jsx 98-103). -/
structure ReportDraft where
  content : Option String
  generatedAt : String
  postCount : Nat
  dateRange : String
  deriving DecidableEq, Repr

/-- What `fetch("/api/ai/report", ...)` comes to in the client: a rejection,
or a response with its status and its body (`none` when it is not JSON). -/
inductive ReportFetch where
  | rejected
  | responded (status : Nat) (body : Option ReportBody)
  deriving DecidableEq, Repr

/-- What a call of `generateReport` leaves behind: the draft held by the state
and the storage, the number of requests issued, the alert shown if any, and
whether the call threw to its caller. -/
structure GenerateResult where
  reportDraft : Option ReportDraft
  requests : Nat
  alert : Option String
  threw : Bool
  deriving DecidableEq, Repr

/-- The property `data.reportText` of a parsed body. -/
def reportTextOf : ReportBody → Option String
  | .report t => t
  | .error _ => none

/-- The function `generateReport` of the client (page.jsx 81-113).  `fmt` is
the formatter of `getDateRange`, `reportDraft` the draft held before the call,
`now` the reading of `new Date()`, `fetched` what the request comes to if it is
issued; the storage write is taken to succeed.  Whatever is thrown inside the
`try` is caught and answered with an alert. -/
def generateReport (fmt : String → String) (posts : List Post)
    (reportDraft : Option ReportDraft) (now : Nat) (fetched : ReportFetch) : GenerateResult :=
  if posts.length = 0 then
    { reportDraft := reportDraft, requests := 0, alert := none, threw := false }
  else
    match fetched with
    | .responded status (some data) =>
      if 200 ≤ status ∧ status ≤ 299 then
        { reportDraft := some
            { content := reportTextOf data
              generatedAt := toISOString now
              postCount := posts.length
              dateRange := getDateRange fmt posts }
          requests := 1, alert := none, threw := false }
      else
        { reportDraft := reportDraft, requests := 1,
          alert := some "Report generation failed.", threw := false }
    | _ =>
      { reportDraft := reportDraft, requests := 1,
        alert := some "Report generation failed.", threw := false }

/-- The client calling the endpoint: `generateReport` on the endpoint's answer
to the request `{ posts, dateRange }` that it sends. -/
def generateReportViaEndpoint (fmt : String → String) (apiKey : Option String)
    (posts : List Post) (reportDraft : Option ReportDraft) (now : Nat)
    (upstream : ReportUpstream) : GenerateResult :=
  generateReport fmt posts reportDraft now
    (.responded
      (reportPOST apiKey (some { posts := some posts, dateRange := some (getDateRange fmt posts) })
        upstream).status
      (some (reportPOST apiKey
        (some { posts := some posts, dateRange := some (getDateRange fmt posts) })
        upstream).body))

/-! ## Feed normalisation -/

/-- An element of `feed.items` as produced by the feed parser: the fields read
by `fetchSubstackPosts`, each possibly absent. -/
structure RawItem where
  title : Option String := none
  link : Option String := none
  pubDate : Option String := none
  creator : Option String := none
  dcCreator : Option String := none
  contentSnippet : Option String := none
  contentEncoded : Option String := none
  content : Option String := none
  deriving DecidableEq, Repr

/-- The character of one UTF-16 code unit; half of a surrogate pair standing
alone has no character and is shown as U+FFFD. -/
def unitChar (u : Nat) : Char :=
  if 55296 ≤ u ∧ u < 57344 then Char.ofNat 65533 else Char.ofNat u

/-- The characters of a sequence of UTF-16 code units. -/
def decodeUnits : List Nat → List Char
  | [] => []
  | [u] => [unitChar u]
  | u :: v :: rest =>
    if 55296 ≤ u ∧ u < 56320 ∧ 56320 ≤ v ∧ v < 57344 then
      Char.ofNat (65536 + (u - 55296) * 1024 + (v - 56320)) :: decodeUnits rest
    else unitChar u :: decodeUnits (v :: rest)

/-- The record built for one item by the mapping of `fetchSubstackPosts`
(rssFetcher.js 20-28). -/
def normalizeItem (item : RawItem) : FeedItem :=
  { title := item.title
    link := item.link
    pubDate := item.pubDate
    author := orOpt item.creator item.dcCreator
    snippet :=
      some (match item.contentSnippet with
        | some t =>
          if t = "" then "" else String.mk (decodeUnits (substringUnits t 0 150)) ++ "..."
        | none => "")
    content := orOpt item.contentEncoded item.content }

/-- The function `fetchSubstackPosts` (rssFetcher.js 11-35): `parsed` is what
`parser.parseURL` comes to; an error of the parser is thrown again. -/
def fetchSubstackPosts (parsed : Outcome (List RawItem)) : Outcome (List FeedItem) :=
  match parsed with
  | .returned items => .returned (items.map normalizeItem)
  | .threw e => .threw e

/-! ## Cron entry point -/

/-- The JSON body of an answer of `/api/cron`. -/
inductive CronBody where
  | unauthorized
  | noPosts
  | executed (foundPosts : Nat)
  | failed
  deriving DecidableEq, Repr

/-- The answer of the cron entry point, with the number of feed fetches made. -/
structure CronResponse where
  status : Nat
  body : CronBody
  feedFetches : Nat
  deriving DecidableEq, Repr

/-- The handler `GET` of `/api/cron` (route.js 7-59).  `cronSecret` and
`nodeEnv` are the environment variables, `authHeader` the value of
`req.headers.get("authorization")`, `parsed` what the feed parser comes to if
the feed is fetched. -/
def cronGET (cronSecret nodeEnv authHeader : Option String)
    (parsed : Outcome (List RawItem)) : CronResponse :=
  if truthy cronSecret ∧ authHeader ≠ some ("Bearer " ++ cronSecret.getD "") ∧
      nodeEnv = some "production" then
    { status := 401, body := .unauthorized, feedFetches := 0 }
  else
    match fetchSubstackPosts parsed with
    | .threw _ => { status := 500, body := .failed, feedFetches := 1 }
    | .returned posts =>
      if posts.length = 0 then { status := 200, body := .noPosts, feedFetches := 1 }
      else { status := 200, body := .executed posts.length, feedFetches := 1 }

/-! ## Feed endpoint and its cache -/

/-- The module variables `cachedPosts` and `lastFetchTime` of `/api/rss`. -/
structure RssCache where
  cachedPosts : List FeedItem := []
  lastFetchTime : Option Nat := none
  deriving DecidableEq, Repr

/-- One request to `/api/rss`: the reading `now` of the clock and what the
feed fetch comes to if the handler makes it. -/
structure RssRequest where
  now : Nat
  feed : Outcome (List FeedItem)
  deriving DecidableEq, Repr

/-- What a request to `/api/rss` did: whether it called the feed fetch, and
the posts it answered with (`none` for the failure answer with status 500). -/
structure RssEvent where
  now : Nat
  fetched : Bool
  posts : Option (List FeedItem)
  deriving DecidableEq, Repr

/-- The handler `GET` of `/api/rss` (route.js 9-30): the module variables
after the request and what the request did. -/
def rssGET (cache : RssCache) (req : RssRequest) : RssCache × RssEvent :=
  let stale : Bool :=
    match cache.lastFetchTime with
    | none => true
    | some last => decide ((req.now : Int) - last > 5 * 60 * 1000)
  if stale then
    match req.feed with
    | .returned posts =>
      ({ cachedPosts := posts, lastFetchTime := some req.now },
        { now := req.now, fetched := true, posts := some posts })
    | .threw _ => (cache, { now := req.now, fetched := true, posts := none })
  else (cache, { now := req.now, fetched := false, posts := some cache.cachedPosts })

/-- A sequence of requests to `/api/rss`, handled one after the other: the
module variables at the end and what each request did. -/
def rssRun (cache : RssCache) (reqs : List RssRequest) : RssCache × List RssEvent :=
  reqs.foldl (fun acc req => ((rssGET acc.1 req).1, acc.2 ++ [(rssGET acc.1 req).2]))
    (cache, [])

/-- The last successful fetch of a history: the clock reading of the request
that made it and the posts it stored. -/
def lastSuccess : List RssEvent → Option (Nat × List FeedItem)
  | [] => none
  | e :: es =>
    match lastSuccess es with
    | some r => some r
    | none =>
      match e.fetched, e.posts with
      | true, some posts => some (e.now, posts)
      | _, _ => none

/-- The cache is past its window at `now`: nothing was fetched yet, or more
than 300000 ms lie between the last fetch and `now`. -/
def Expired (lastFetchTime : Option Nat) (now : Nat) : Prop :=
  lastFetchTime = none ∨ ∃ t, lastFetchTime = some t ∧ t + 300000 < now

/-! ## Basic facts about the store and the ingestion loop -/

theorem existsCheck_iff (posts : List Post) (post : FeedItem) :
    existsCheck posts post = true ↔ ∃ p ∈ posts, p.url = post.link ∨ p.title = post.title := by
  simp [existsCheck, List.any_eq_true]

theorem specExists_iff (posts : List Post) (post : FeedItem) :
    specExists posts post = true ↔
      ∃ p ∈ posts, (p.url = post.link ∧ truthy p.url = true ∧ truthy post.link = true) ∨
        p.title = post.title := by
  simp [specExists, List.any_eq_true, and_assoc]

theorem length_addPost (posts : List Post) (tId tAt : Nat) (post : Post) :
    (addPost posts tId tAt post).length = posts.length + 1 := by
  simp [addPost]

theorem ingestStep_of_exists {posts : List Post}
    {onClassify : Option String → Option String → Classification} {clock : Nat → Nat × Nat}
    {post : FeedItem} (st : IngestState) (h : existsCheck posts post = true) :
    ingestStep posts onClassify clock st post = st := by
  simp [ingestStep, h]

/-- A run over items that all pass the duplicate test changes nothing. -/
theorem foldl_ingestStep_of_exists (posts : List Post)
    (onClassify : Option String → Option String → Classification) (clock : Nat → Nat × Nat)
    (items : List FeedItem) (h : ∀ it ∈ items, existsCheck posts it = true)
    (st : IngestState) :
    items.foldl (ingestStep posts onClassify clock) st = st := by
  induction items generalizing st with
  | nil => rfl
  | cons it rest ih =>
    have h1 : existsCheck posts it = true := h it (List.mem_cons_self _ _)
    have h2 : ∀ x ∈ rest, existsCheck posts x = true :=
      fun x hx => h x (List.mem_cons_of_mem _ hx)
    rw [List.foldl_cons, ingestStep_of_exists st h1]
    exact ih h2 st

/-- The counter of a run is the number of items that fail the duplicate test
against the collection the handler was created with. -/
theorem foldl_ingestStep_addedCount (posts : List Post)
    (onClassify : Option String → Option String → Classification) (clock : Nat → Nat × Nat)
    (items : List FeedItem) (st : IngestState) :
    (items.foldl (ingestStep posts onClassify clock) st).addedCount =
      st.addedCount + (items.filter fun it => !existsCheck posts it).length := by
  induction items generalizing st with
  | nil => simp
  | cons it rest ih =>
    rw [List.foldl_cons, ih]
    by_cases h : existsCheck posts it = true
    · simp [ingestStep, h]
    · simp [ingestStep, h]
      omega

/-- Every call of `onAdd` in a run prepends to the same captured list, so the
collection left by a run is at most one post longer than the one it started
from. -/
theorem foldl_ingestStep_length (posts : List Post)
    (onClassify : Option String → Option String → Classification) (clock : Nat → Nat × Nat)
    (items : List FeedItem) (st : IngestState)
    (hst : st.collection.length = posts.length ∨ st.collection.length = posts.length + 1) :
    ((items.foldl (ingestStep posts onClassify clock) st).collection.length = posts.length ∨
      (items.foldl (ingestStep posts onClassify clock) st).collection.length =
        posts.length + 1) := by
  induction items generalizing st with
  | nil => simpa using hst
  | cons it rest ih =>
    rw [List.foldl_cons]
    apply ih
    by_cases h : existsCheck posts it = true
    · simpa [ingestStep, h] using hst
    · right
      simp [ingestStep, h, addPost]

/-! ## Feed ingestion (C1, C2) -/

/-- Whatever the feed, a run leaves a collection at most one post longer than
the one it started from. -/
theorem fetchRssPosts_length_le (posts : List Post)
    (onClassify : Option String → Option String → Classification) (clock : Nat → Nat × Nat)
    (items : List FeedItem) :
    (fetchRssPosts posts onClassify clock items).collection.length ≤ posts.length + 1 := by
  have h := foldl_ingestStep_length posts onClassify clock items
    { collection := posts, addedCount := 0, processed := [] } (Or.inl rfl)
  unfold fetchRssPosts
  omega

/-- Claim C1, evaluated at a failing input.  The collection holds one post
titled "A"; the feed holds three items titled "A", "B" and "C".  Whatever the
classifier answers and whatever the clock reads, the run reports
`addedCount = 2`, but the collection it leaves is only one post longer than
before: it holds the post made from "C" followed by the old post, and the post
made from "B" is gone, because every `onAdd` call prepends to the list captured
when the handler was created. -/
theorem fetchRssPosts_one_duplicate_of_three
    (onClassify : Option String → Option String → Classification) (clock : Nat → Nat × Nat) :
    (fetchRssPosts [{ title := some "A", url := some "https://s/a" }] onClassify clock
        [{ title := some "A", link := some "https://s/a" },
         { title := some "B", link := some "https://s/b" },
         { title := some "C", link := some "https://s/c" }]).addedCount = 2 ∧
      (fetchRssPosts [{ title := some "A", url := some "https://s/a" }] onClassify clock
        [{ title := some "A", link := some "https://s/a" },
         { title := some "B", link := some "https://s/b" },
         { title := some "C", link := some "https://s/c" }]).collection.length = 1 + 1 ∧
      (fetchRssPosts [{ title := some "A", url := some "https://s/a" }] onClassify clock
        [{ title := some "A", link := some "https://s/a" },
         { title := some "B", link := some "https://s/b" },
         { title := some "C", link := some "https://s/c" }]).collection.map (fun p => p.title) =
        [some "C", some "A"] := by
  refine ⟨?_, ?_, ?_⟩ <;>
    simp [fetchRssPosts, ingestStep, existsCheck, addPost, candidate]

/-- Claim C2, evaluated at a failing input.  The collection is empty and the
feed holds two items with the same title "T".  The duplicate test is made
against the list captured when the handler was created, which the first
addition does not change: both items are classified and handed to `onAdd`, the
counter reaches 2, and the collection left by the run holds only the post made
from the second item. -/
theorem fetchRssPosts_same_title_twice
    (onClassify : Option String → Option String → Classification) (clock : Nat → Nat × Nat) :
    (fetchRssPosts [] onClassify clock
        [{ title := some "T", link := some "https://s/1" },
         { title := some "T", link := some "https://s/2" }]).processed =
        [{ title := some "T", link := some "https://s/1" },
         { title := some "T", link := some "https://s/2" }] ∧
      (fetchRssPosts [] onClassify clock
        [{ title := some "T", link := some "https://s/1" },
         { title := some "T", link := some "https://s/2" }]).addedCount = 2 ∧
      (fetchRssPosts [] onClassify clock
        [{ title := some "T", link := some "https://s/1" },
         { title := some "T", link := some "https://s/2" }]).collection.map (fun p => p.url) =
        [some "https://s/2"] := by
  refine ⟨?_, ?_, ?_⟩ <;>
    simp [fetchRssPosts, ingestStep, existsCheck, addPost, candidate]

/-! ## Duplicates (C3, C4) -/

/-- Claim C3 is false as stated: after a post with url `https://s/a` has been
added with `addPost`, adding a second post with the same url makes the
collection longer. -/
theorem addPost_same_url_grows :
    ¬ (addPost (addPost [] 1700000000000 1700000000000
            { title := some "A", url := some "https://s/a" })
          1700000000001 1700000000001
          { title := some "B", url := some "https://s/a" }).length ≤
        (addPost [] 1700000000000 1700000000000
            { title := some "A", url := some "https://s/a" }).length := by
  simp [addPost]

/-- Claim C3 as amended.  `addPost` makes no duplicate test: for every
collection and every two posts, whatever their urls, adding the second after
the first yields a collection exactly one post longer, with the second post's
url in front of the first's.  Duplicates are screened by feed ingestion alone:
a run over items each of whose links is the url of a post of the collection
the run started from adds nothing and leaves the collection as it was. -/
theorem addPost_twice_and_ingest_skip (c : List Post) (p1 p2 : Post) (t1 a1 t2 a2 : Nat)
    (onClassify : Option String → Option String → Classification) (clock : Nat → Nat × Nat)
    (items : List FeedItem) (h : ∀ it ∈ items, ∃ p ∈ c, p.url = it.link) :
    (addPost (addPost c t1 a1 p1) t2 a2 p2).length = (addPost c t1 a1 p1).length + 1 ∧
      (addPost (addPost c t1 a1 p1) t2 a2 p2).map (fun p => p.url) =
        p2.url :: p1.url :: c.map (fun p => p.url) ∧
      fetchRssPosts c onClassify clock items =
        { collection := c, addedCount := 0, processed := [] } := by
  refine ⟨by simp [addPost], by simp [addPost], ?_⟩
  apply foldl_ingestStep_of_exists
  intro it hit
  obtain ⟨p, hp, hurl⟩ := h it hit
  exact (existsCheck_iff c it).2 ⟨p, hp, Or.inl hurl⟩

/-- Instance of `addPost_twice_and_ingest_skip`: two posts with the same url
added by hand, and a feed item with that url skipped by ingestion. -/
theorem addPost_twice_and_ingest_skip_witness :
    (addPost (addPost [{ title := some "A", url := some "https://s/a" }] 5 5
          { title := some "B", url := some "https://s/b" }) 6 6
          { title := some "C", url := some "https://s/b" }).length =
        (addPost [{ title := some "A", url := some "https://s/a" }] 5 5
          { title := some "B", url := some "https://s/b" }).length + 1 ∧
      (addPost (addPost [{ title := some "A", url := some "https://s/a" }] 5 5
          { title := some "B", url := some "https://s/b" }) 6 6
          { title := some "C", url := some "https://s/b" }).map (fun p => p.url) =
        (some "https://s/b" : Option String) :: some "https://s/b" ::
          [{ title := some "A", url := some "https://s/a" }].map (fun p : Post => p.url) ∧
      fetchRssPosts [{ title := some "A", url := some "https://s/a" }]
          (fun _ _ => fallbackClassification) (fun k => (k, k))
          [{ title := some "D", link := some "https://s/a" }] =
        { collection := [{ title := some "A", url := some "https://s/a" }],
          addedCount := 0, processed := [] } :=
  addPost_twice_and_ingest_skip [{ title := some "A", url := some "https://s/a" }]
    { title := some "B", url := some "https://s/b" }
    { title := some "C", url := some "https://s/b" } 5 5 6 6
    (fun _ _ => fallbackClassification) (fun k => (k, k))
    [{ title := some "D", link := some "https://s/a" }] (by decide)

/-- Claim C4 is false as stated: a stored post without url titled "A" and a
feed item without link titled "B" are treated as duplicates by the code,
although no url is non-empty and the titles differ. -/
theorem existsCheck_both_without_url :
    existsCheck [{ title := some "A" }] { title := some "B" } = true ∧
      specExists [{ title := some "A" }] { title := some "B" } = false := by
  decide

/-- Claim C4 as amended.  The duplicate test is true exactly when some stored
post has a url strictly equal to the item's link (two absent values are equal,
and so are two empty strings) or a title equal to the item's title.  Whenever
the stated test holds the coded one holds, and for an item whose link is
non-empty the two agree. -/
theorem existsCheck_characterisation (posts : List Post) (post : FeedItem) :
    (existsCheck posts post = true ↔
        ∃ p ∈ posts, p.url = post.link ∨ p.title = post.title) ∧
      (specExists posts post = true → existsCheck posts post = true) ∧
      (truthy post.link = true → existsCheck posts post = specExists posts post) := by
  refine ⟨existsCheck_iff posts post, ?_, ?_⟩
  · intro h
    obtain ⟨p, hp, hcase⟩ := (specExists_iff posts post).1 h
    refine (existsCheck_iff posts post).2 ⟨p, hp, ?_⟩
    rcases hcase with h1 | h2
    · exact Or.inl h1.1
    · exact Or.inr h2
  · intro hl
    rw [Bool.eq_iff_iff, existsCheck_iff, specExists_iff]
    constructor
    · rintro ⟨p, hp, h1 | h2⟩
      · exact ⟨p, hp, Or.inl ⟨h1, by rw [h1]; exact hl, hl⟩⟩
      · exact ⟨p, hp, Or.inr h2⟩
    · rintro ⟨p, hp, h1 | h2⟩
      · exact ⟨p, hp, Or.inl h1.1⟩
      · exact ⟨p, hp, Or.inr h2⟩

/-- Instance of `existsCheck_characterisation`: for an item with a link the
coded and the stated test agree on a collection holding a post without url. -/
theorem existsCheck_characterisation_witness :
    existsCheck [{ title := some "A" }] { title := some "B", link := some "https://s/b" } =
      specExists [{ title := some "A" }] { title := some "B", link := some "https://s/b" } :=
  (existsCheck_characterisation [{ title := some "A" }]
    { title := some "B", link := some "https://s/b" }).2.2 (by decide)

/-! ## Adding a post (C10) -/

/-- Claim C10.  For every collection `c`, post `p` and clock readings,
`addPost` yields a collection of length `|c| + 1`; its first element carries
the id and the `addedAt` made from the clock readings (whatever `p` carried)
and every other field of `p` unchanged; the remaining elements are `c`. -/
theorem addPost_frame (c : List Post) (p : Post) (tId tAt : Nat) :
    (addPost c tId tAt p).length = c.length + 1 ∧
      ∃ q, addPost c tId tAt p = q :: c ∧
        q.id = some (toString tId) ∧ q.addedAt = some (toISOString tAt) ∧
        q.source = p.source ∧ q.title = p.title ∧ q.content = p.content ∧
        q.url = p.url ∧ q.publishedDate = p.publishedDate ∧ q.theme = p.theme ∧
        q.keyInsight = p.keyInsight := by
  refine ⟨by simp [addPost], _, rfl, ?_⟩
  simp

/-! ## Date range (C7, C8, C9) -/

theorem postDates_eq_nil (items : List Post)
    (h : ∀ p ∈ items, truthy p.publishedDate = false ∧ truthy p.addedAt = false) :
    postDates items = [] := by
  induction items with
  | nil => rfl
  | cons p rest ih =>
    have hp := h p (List.mem_cons_self _ _)
    have hrest := ih fun q hq => h q (List.mem_cons_of_mem _ hq)
    have hnone : (match orOpt p.publishedDate p.addedAt with
        | some d => if d = "" then none else some d
        | none => none) = (none : Option String) := by
      rw [orOpt, hp.1]
      cases hat : p.addedAt with
      | none => simp
      | some d =>
        have := hp.2
        rw [hat] at this
        simp [truthy] at this
        simp [this]
    simp only [postDates, List.filterMap_cons, hnone]
    exact hrest

theorem postDates_singleton (p : Post) (d : String) (hd : d ≠ "")
    (h : p.publishedDate = some d ∨ (truthy p.publishedDate = false ∧ p.addedAt = some d)) :
    postDates [p] = [d] := by
  have hor : orOpt p.publishedDate p.addedAt = some d := by
    rcases h with h1 | ⟨h1, h2⟩
    · simp [orOpt, h1, truthy, hd]
    · simp [orOpt, h1, h2]
  simp [postDates, hor, hd]

/-- Claim C7, evaluated at a failing input.  Two posts taken from a feed carry
the RSS dates `Mon, 01 Jan 2024 10:00:00 GMT` and `Fri, 01 Mar 2024 10:00:00 GMT`.
The first denotes the earlier instant, yet `getDateRange` prints March before
January, because `sort()` orders the date texts as strings and `F` comes before
`M`; the stated range is `Jan 2024 – Mar 2024`. -/
theorem getDateRange_rss_dates_out_of_order :
    dateParse "Mon, 01 Jan 2024 10:00:00 GMT" = some 1704103200000 ∧
      dateParse "Fri, 01 Mar 2024 10:00:00 GMT" = some 1709287200000 ∧
      getDateRange fmtMonthYear
          [{ title := some "A", publishedDate := some "Mon, 01 Jan 2024 10:00:00 GMT",
             addedAt := some "2024-03-02T08:00:00.000Z" },
           { title := some "B", publishedDate := some "Fri, 01 Mar 2024 10:00:00 GMT",
             addedAt := some "2024-03-02T08:00:00.001Z" }] = "Mar 2024 – Jan 2024" ∧
      specDateRange dateParse fmtMonthYear
          [{ title := some "A", publishedDate := some "Mon, 01 Jan 2024 10:00:00 GMT",
             addedAt := some "2024-03-02T08:00:00.000Z" },
           { title := some "B", publishedDate := some "Fri, 01 Mar 2024 10:00:00 GMT",
             addedAt := some "2024-03-02T08:00:00.001Z" }] = "Jan 2024 – Mar 2024" := by
  decide

/-- Claim C8.  `getDateRange` returns "N/A" for the empty collection and for
every collection in which each post's `publishedDate` and `addedAt` are both
absent (or empty), whatever the formatter. -/
theorem getDateRange_not_available (fmt : String → String) (items : List Post)
    (h : ∀ p ∈ items, truthy p.publishedDate = false ∧ truthy p.addedAt = false) :
    getDateRange fmt [] = "N/A" ∧ getDateRange fmt items = "N/A" := by
  refine ⟨rfl, ?_⟩
  simp [getDateRange, postDates_eq_nil items h]

/-- Instance of `getDateRange_not_available`: two posts without any date. -/
theorem getDateRange_not_available_witness :
    getDateRange fmtMonthYear [] = "N/A" ∧
      getDateRange fmtMonthYear [{ title := some "A" }, { title := some "B", addedAt := some "" }] =
        "N/A" :=
  getDateRange_not_available fmtMonthYear
    [{ title := some "A" }, { title := some "B", addedAt := some "" }] (by decide)

/-- Claim C9.  For every post `p` that has a date `d` (its `publishedDate`, or
its `addedAt` when it has no `publishedDate`), `getDateRange` of the one-post
collection is the formatted `d` on both sides of the dash. -/
theorem getDateRange_single (fmt : String → String) (p : Post) (d : String) (hd : d ≠ "")
    (h : p.publishedDate = some d ∨ (truthy p.publishedDate = false ∧ p.addedAt = some d)) :
    getDateRange fmt [p] = fmt d ++ " – " ++ fmt d := by
  simp [getDateRange, postDates_singleton p d hd h]

/-- Instance of `getDateRange_single`: a post added by hand on 5 March 2024. -/
theorem getDateRange_single_witness :
    getDateRange fmtMonthYear [{ title := some "A", addedAt := some "2024-03-05T09:30:00.000Z" }] =
      fmtMonthYear "2024-03-05T09:30:00.000Z" ++ " – " ++
        fmtMonthYear "2024-03-05T09:30:00.000Z" :=
  getDateRange_single fmtMonthYear
    { title := some "A", addedAt := some "2024-03-05T09:30:00.000Z" }
    "2024-03-05T09:30:00.000Z" (by decide) (Or.inr ⟨by decide, rfl⟩)

/-! ## Theme statistics (C5, C6) -/

theorem mem_firstSeen {s : String} {l : List String} : s ∈ firstSeen l ↔ s ∈ l := by
  induction l with
  | nil => simp [firstSeen]
  | cons t ts ih =>
    simp only [firstSeen, List.mem_cons, List.mem_filter, ih]
    by_cases h : s = t <;> simp [h]

theorem nodup_firstSeen (l : List String) : (firstSeen l).Nodup := by
  induction l with
  | nil => simp [firstSeen]
  | cons t ts ih =>
    simp only [firstSeen, List.nodup_cons, List.mem_filter]
    exact ⟨by simp, ih.filter _⟩

theorem firstSeen_append_singleton (l : List String) (t : String) :
    firstSeen (l ++ [t]) = if t ∈ l then firstSeen l else firstSeen l ++ [t] := by
  induction l with
  | nil => simp [firstSeen]
  | cons a as ih =>
    rw [List.cons_append, firstSeen, firstSeen, ih]
    by_cases h1 : t = a
    · subst h1
      by_cases h2 : t ∈ as <;> simp [h2, List.filter_append]
    · by_cases h2 : t ∈ as <;> simp [h1, h2, List.filter_append]

theorem pairwise_firstSeen (l : List String) :
    (firstSeen l).Pairwise fun s t => l.indexOf s < l.indexOf t := by
  induction l with
  | nil => simp [firstSeen]
  | cons a as ih =>
    simp only [firstSeen, List.pairwise_cons, List.mem_filter]
    refine ⟨?_, ?_⟩
    · rintro t ⟨-, ht⟩
      have hne : t ≠ a := by simpa using ht
      rw [List.indexOf_cons_self, List.indexOf_cons_ne _ (Ne.symm hne)]
      exact Nat.succ_pos _
    · rw [List.pairwise_filter]
      refine ih.imp ?_
      intro s t hst hs ht
      have hs' : s ≠ a := by simpa using hs
      have ht' : t ≠ a := by simpa using ht
      rw [List.indexOf_cons_ne _ (Ne.symm hs'), List.indexOf_cons_ne _ (Ne.symm ht')]
      exact Nat.succ_lt_succ hst




theorem lookup_map_key (f : String → StatValue) (ks : List String) (t : String) :
    (ks.map fun k => (k, f k)).lookup t = if t ∈ ks then some (f t) else none := by
  induction ks with
  | nil => simp
  | cons k ks ih =>
    rw [List.map_cons, List.lookup_cons, ih]
    by_cases h : t = k
    · subst h
      simp
    · have : (t == k) = false := by simpa using h
      simp [this, h]

theorem bump_tallyOf (pre : List String) (t : String) (ht : t ∉ protoNames) :
    bump (tallyOf pre) t = tallyOf (pre ++ [t]) := by
  have hproto : t ≠ "__proto__" := fun h => ht (by simp [protoNames, h])
  have hfun : t ∉ protoFunctions := fun h => ht (by simp [protoNames, h])
  unfold bump
  rw [tallyOf, lookup_map_key, ← tallyOf]
  by_cases hmem : t ∈ pre
  · have hmem' : t ∈ firstSeen pre := mem_firstSeen.2 hmem
    simp only [hmem', if_true]
    rw [tallyOf, tallyOf, firstSeen_append_singleton, if_pos hmem, List.map_map]
    apply List.map_congr_left
    intro k _
    by_cases hk : k = t
    · subst hk
      simp [bumpValue, List.count_append]
    · have : (t == k) = false := by simpa using (Ne.symm hk)
      simp [hk, List.count_append, List.count_singleton, this]
  · have hmem' : t ∉ firstSeen pre := fun h => hmem (mem_firstSeen.1 h)
    simp only [hmem', if_false, hproto, hfun]
    rw [tallyOf, tallyOf, firstSeen_append_singleton, if_neg hmem, List.map_append]
    congr 1
    · apply List.map_congr_left
      intro k hk
      have hkt : k ≠ t := fun h => hmem (h ▸ mem_firstSeen.1 hk)
      have : (t == k) = false := by simpa using (Ne.symm hkt)
      simp [List.count_append, List.count_singleton, this]
    · simp [List.count_append, List.count_eq_zero_of_not_mem hmem]

theorem foldl_bump_tallyOf (pre themes : List String) (h : ∀ t ∈ themes, t ∉ protoNames) :
    themes.foldl bump (tallyOf pre) = tallyOf (pre ++ themes) := by
  induction themes generalizing pre with
  | nil => simp
  | cons t ts ih =>
    rw [List.foldl_cons, bump_tallyOf pre t (h t (List.mem_cons_self _ _)),
      ih (pre ++ [t]) fun s hs => h s (List.mem_cons_of_mem _ hs)]
    simp

theorem foldl_bump_eq_tallyOf (themes : List String) (h : ∀ t ∈ themes, t ∉ protoNames) :
    themes.foldl bump [] = tallyOf themes := by
  have := foldl_bump_tallyOf [] themes h
  simpa [tallyOf, firstSeen] using this



/-- Inserting `x` into a list arranged by `r` with ties in the order `E`. -/
theorem pairwise_orderedInsert_stable {α : Type} (r E : α → α → Prop) [DecidableRel r]
    (x : α) (S : List α)
    (hS : S.Pairwise fun a b => r a b ∧ (r b a → E a b))
    (hx : ∀ c ∈ S, E x c) (htot : ∀ c ∈ S, r x c ∨ r c x)
    (htr : ∀ b ∈ S, ∀ c ∈ S, r x b → r b c → r x c) :
    (S.orderedInsert r x).Pairwise fun a b => r a b ∧ (r b a → E a b) := by
  induction S with
  | nil => simp
  | cons b S ih =>
    rw [List.pairwise_cons] at hS
    rw [List.orderedInsert]
    split
    · rename_i hxb
      refine List.Pairwise.cons ?_ (List.Pairwise.cons hS.1 hS.2)
      intro c hc
      refine ⟨?_, fun _ => hx c hc⟩
      rcases List.mem_cons.1 hc with rfl | hc'
      · exact hxb
      · exact htr b (List.mem_cons_self _ _) c hc hxb (hS.1 c hc').1
    · rename_i hxb
      refine List.Pairwise.cons ?_ ?_
      · intro c hc
        rcases (List.mem_orderedInsert r).1 hc with rfl | hc'
        · refine ⟨?_, fun h => absurd h hxb⟩
          rcases htot b (List.mem_cons_self _ _) with h | h
          · exact absurd h hxb
          · exact h
        · exact hS.1 c hc'
      · exact ih hS.2 (fun c hc => hx c (List.mem_cons_of_mem _ hc))
          (fun c hc => htot c (List.mem_cons_of_mem _ hc))
          (fun b' hb' c hc => htr b' (List.mem_cons_of_mem _ hb') c (List.mem_cons_of_mem _ hc))

/-- A stable sort: the result is arranged by `r`, and elements that `r` does
not separate keep the order `E` they had in the input. -/
theorem pairwise_insertionSort_stable {α : Type} (r E : α → α → Prop) [DecidableRel r]
    (l : List α) (hE : l.Pairwise E)
    (htot : ∀ a ∈ l, ∀ b ∈ l, r a b ∨ r b a)
    (htr : ∀ a ∈ l, ∀ b ∈ l, ∀ c ∈ l, r a b → r b c → r a c) :
    (l.insertionSort r).Pairwise fun a b => r a b ∧ (r b a → E a b) := by
  induction l with
  | nil => simp
  | cons x l ih =>
    rw [List.pairwise_cons] at hE
    rw [List.insertionSort_cons_eq_take_drop]
    rw [← List.orderedInsert_eq_take_drop]
    have hmem : ∀ {c}, c ∈ l.insertionSort r → c ∈ l := fun h => (List.mem_insertionSort r).1 h
    refine pairwise_orderedInsert_stable r E x _ ?_ ?_ ?_ ?_
    · exact ih hE.2 (fun a ha b hb => htot a (List.mem_cons_of_mem _ ha) b (List.mem_cons_of_mem _ hb))
        (fun a ha b hb c hc => htr a (List.mem_cons_of_mem _ ha) b (List.mem_cons_of_mem _ hb)
          c (List.mem_cons_of_mem _ hc))
    · exact fun c hc => hE.1 c (hmem hc)
    · exact fun c hc => htot x (List.mem_cons_self _ _) c (List.mem_cons_of_mem _ (hmem hc))
    · exact fun b hb c hc => htr x (List.mem_cons_self _ _) b (List.mem_cons_of_mem _ (hmem hb))
        c (List.mem_cons_of_mem _ (hmem hc))



theorem arrayIndex_eq_some {s : String} {n : Nat} (h : arrayIndex s = some n) :
    toString n = s := by
  unfold arrayIndex at h
  split at h
  · split at h
    · rename_i hc
      simp only [Option.some.injEq] at h
      subst h
      exact hc.1
    · simp at h
  · simp at h

theorem mem_tallyOf {e : Entry} {l : List String} (h : e ∈ tallyOf l) :
    e.1 ∈ l ∧ e.2 = .num (l.count e.1) := by
  simp only [tallyOf, List.mem_map] at h
  obtain ⟨k, hk, rfl⟩ := h
  exact ⟨mem_firstSeen.1 hk, rfl⟩

theorem pairwise_tallyOf (l : List String) :
    (tallyOf l).Pairwise fun a b => a.1 ≠ b.1 ∧ l.indexOf a.1 < l.indexOf b.1 := by
  rw [tallyOf, List.pairwise_map]
  exact ((nodup_firstSeen l).and (pairwise_firstSeen l))

theorem mem_objectEntries {e : Entry} {stats : List Entry} :
    e ∈ objectEntries stats ↔ e ∈ stats := by
  simp only [objectEntries, List.mem_append, List.mem_insertionSort, List.mem_filter]
  cases h : arrayIndex e.1 <;> simp

theorem pairwise_objectEntries (l : List String) :
    (objectEntries (tallyOf l)).Pairwise fun a b => entryBefore l a.1 b.1 := by
  rw [objectEntries, List.pairwise_append]
  refine ⟨?_, ?_, ?_⟩
  · have hsorted := pairwise_insertionSort_stable
      (fun a b : Entry => (arrayIndex a.1).getD 0 ≤ (arrayIndex b.1).getD 0)
      (fun a b : Entry => a.1 ≠ b.1)
      ((tallyOf l).filter fun e => (arrayIndex e.1).isSome)
      (((pairwise_tallyOf l).imp fun h => h.1).filter _)
      (fun a _ b _ => Nat.le_total _ _)
      (fun a _ b _ c _ h1 h2 => Nat.le_trans h1 h2)
    refine hsorted.imp_of_mem ?_
    intro a b ha hb hab
    have ha' := (List.mem_filter.1 ((List.mem_insertionSort _).1 ha)).2
    have hb' := (List.mem_filter.1 ((List.mem_insertionSort _).1 hb)).2
    obtain ⟨i, hi⟩ := Option.isSome_iff_exists.1 ha'
    obtain ⟨j, hj⟩ := Option.isSome_iff_exists.1 hb'
    simp only [hi, hj, Option.getD_some] at hab
    simp only [entryBefore, hi, hj]
    rcases Nat.lt_or_ge i j with h | h
    · exact h
    · exfalso
      apply hab.2 h
      rw [← arrayIndex_eq_some hi, ← arrayIndex_eq_some hj, Nat.le_antisymm hab.1 h]
  · refine (((pairwise_tallyOf l).imp fun h => h.2).filter _).imp_of_mem ?_
    intro a b ha hb hab
    have ha' := (List.mem_filter.1 ha).2
    have hb' := (List.mem_filter.1 hb).2
    simp only [Option.isNone_iff_eq_none] at ha' hb'
    simp only [entryBefore, ha', hb']
    exact hab
  · intro a ha b hb
    have ha' := (List.mem_filter.1 ((List.mem_insertionSort _).1 ha)).2
    have hb' := (List.mem_filter.1 hb).2
    obtain ⟨i, hi⟩ := Option.isSome_iff_exists.1 ha'
    simp only [Option.isNone_iff_eq_none] at hb'
    simp [entryBefore, hi, hb']



theorem objectEntries_perm (stats : List Entry) : (objectEntries stats).Perm stats := by
  unfold objectEntries
  have h1 := (List.perm_insertionSort
    (fun a b : Entry => (arrayIndex a.1).getD 0 ≤ (arrayIndex b.1).getD 0)
    (stats.filter fun e => (arrayIndex e.1).isSome))
  have h2 := List.filter_append_perm (fun e : Entry => (arrayIndex e.1).isSome) stats
  have h3 : (stats.filter fun e => (arrayIndex e.1).isNone) =
      stats.filter fun e => !(arrayIndex e.1).isSome := by
    congr 1
    funext e
    cases arrayIndex e.1 <;> rfl
  rw [h3]
  exact (h1.append_right _).trans h2

theorem getThemeStats_perm (posts : List Post) (h : ∀ p ∈ posts, themeOf p ∉ protoNames) :
    (getThemeStats posts).Perm (tallyOf (posts.map themeOf)) := by
  unfold getThemeStats
  rw [foldl_bump_eq_tallyOf _ (by simpa using h)]
  exact (List.perm_insertionSort _ _).trans (objectEntries_perm _)

theorem sum_countOf_tallyOf (l : List String) : ((tallyOf l).map countOf).sum = l.length := by
  have hperm : (firstSeen l).Perm l.dedup :=
    (List.perm_ext_iff_of_nodup (nodup_firstSeen l) (List.nodup_dedup l)).2
      fun a => by rw [mem_firstSeen, List.mem_dedup]
  rw [tallyOf, List.map_map]
  have : (countOf ∘ fun k => ((k, StatValue.num (l.count k)) : Entry)) = fun k => l.count k := by
    funext k
    rfl
  rw [this, (hperm.map _).sum_eq]
  exact List.sum_map_count_dedup_eq_length l

/-- On a collection none of whose themes names an inherited property, the
counts returned by `getThemeStats` sum to the number of posts. -/
theorem getThemeStats_sum (posts : List Post) (h : ∀ p ∈ posts, themeOf p ∉ protoNames) :
    ((getThemeStats posts).map countOf).sum = posts.length := by
  rw [((getThemeStats_perm posts h).map countOf).sum_eq, sum_countOf_tallyOf, List.length_map]

/-- Claim C6 as amended.  On a collection none of whose themes names a property
inherited from `Object.prototype`, every pair returned by `getThemeStats` is a
theme of the collection with the number of its posts, the pairs are in
non-increasing order of count, and of two themes with equal counts the earlier
one is the one that comes first in the order of `Object.entries`: themes that
are array indices in ascending numeric order, before all other themes in the
order in which each was first encountered. -/
theorem getThemeStats_sorted_stable (posts : List Post) (h : ∀ p ∈ posts, themeOf p ∉ protoNames) :
    (∀ e ∈ getThemeStats posts,
        e.1 ∈ posts.map themeOf ∧ e.2 = .num ((posts.map themeOf).count e.1)) ∧
      (getThemeStats posts).Pairwise fun a b =>
        countOf b ≤ countOf a ∧
          (countOf a = countOf b → entryBefore (posts.map themeOf) a.1 b.1) := by
  have hmemT : ∀ e ∈ getThemeStats posts, e ∈ tallyOf (posts.map themeOf) :=
    fun e he => (getThemeStats_perm posts h).mem_iff.1 he
  refine ⟨fun e he => mem_tallyOf (hmemT e he), ?_⟩
  have hnum : ∀ e ∈ objectEntries (tallyOf (posts.map themeOf)), ∃ n, e.2 = .num n :=
    fun e he => ⟨_, (mem_tallyOf (mem_objectEntries.1 he)).2⟩
  have hrel : ∀ a ∈ objectEntries (tallyOf (posts.map themeOf)),
      ∀ b ∈ objectEntries (tallyOf (posts.map themeOf)),
      (countOrder a b ↔ countOf b ≤ countOf a) := by
    intro a ha b hb
    obtain ⟨x, hx⟩ := hnum a ha
    obtain ⟨y, hy⟩ := hnum b hb
    simp [countOrder, countOf, hx, hy]
  have hsort := pairwise_insertionSort_stable countOrder
    (fun a b : Entry => entryBefore (posts.map themeOf) a.1 b.1)
    (objectEntries (tallyOf (posts.map themeOf)))
    (pairwise_objectEntries _)
    (fun a ha b hb => by
      rw [hrel a ha b hb, hrel b hb a ha]
      exact Nat.le_total _ _)
    (fun a ha b hb c hc => by
      rw [hrel a ha b hb, hrel b hb c hc, hrel a ha c hc]
      exact fun h1 h2 => Nat.le_trans h2 h1)
  unfold getThemeStats
  rw [foldl_bump_eq_tallyOf _ (by simpa using h)]
  refine hsort.imp_of_mem ?_
  intro a b ha hb hab
  have ha' := (List.mem_insertionSort _).1 ha
  have hb' := (List.mem_insertionSort _).1 hb
  rw [hrel a ha' b hb', hrel b hb' a ha'] at hab
  exact ⟨hab.1, fun heq => hab.2 (Nat.le_of_eq heq)⟩

/-- Instance of `getThemeStats_sorted_stable`: five posts over the themes
"Global Macro", "7" and "Other". -/
theorem getThemeStats_sorted_stable_witness :
    (∀ e ∈ getThemeStats [{ theme := some "Global Macro" }, { theme := some "7" }, { },
          { theme := some "Global Macro" }, { theme := some "" }],
        e.1 ∈ [({ theme := some "Global Macro" } : Post), { theme := some "7" }, { },
          { theme := some "Global Macro" }, { theme := some "" }].map themeOf ∧
        e.2 = .num (([({ theme := some "Global Macro" } : Post), { theme := some "7" }, { },
          { theme := some "Global Macro" }, { theme := some "" }].map themeOf).count e.1)) ∧
      (getThemeStats [{ theme := some "Global Macro" }, { theme := some "7" }, { },
          { theme := some "Global Macro" }, { theme := some "" }]).Pairwise fun a b =>
        countOf b ≤ countOf a ∧
          (countOf a = countOf b →
            entryBefore ([({ theme := some "Global Macro" } : Post), { theme := some "7" }, { },
              { theme := some "Global Macro" }, { theme := some "" }].map themeOf) a.1 b.1) :=
  getThemeStats_sorted_stable [{ theme := some "Global Macro" }, { theme := some "7" }, { },
    { theme := some "Global Macro" }, { theme := some "" }] (by decide)

/-- Claim C6 is false as stated: the theme "Macro" is encountered before the
theme "2024", both have one post, and `getThemeStats` lists "2024" first,
because an object enumerates its array-index keys before its other keys. -/
theorem getThemeStats_index_key_first :
    getThemeStats [{ title := some "A", theme := some "Macro" },
        { title := some "B", theme := some "2024" }] =
        [("2024", .num 1), ("Macro", .num 1)] ∧
      List.indexOf "Macro" ["Macro", "2024"] < List.indexOf "2024" ["Macro", "2024"] := by
  decide

/-- Claim C5, evaluated at a failing input.  Of two posts, one has the theme
"__proto__" (a classifier answer stored as is).  `getThemeStats` returns the
single pair ("Other", 1): the counts sum to 1 while the collection holds 2
posts, because assigning a string to the inherited `__proto__` accessor creates
no property. -/
theorem getThemeStats_proto_theme_not_counted :
    getThemeStats [{ title := some "A", theme := some "Other" },
        { title := some "B", theme := some "__proto__" }] = [("Other", .num 1)] ∧
      ((getThemeStats [{ title := some "A", theme := some "Other" },
        { title := some "B", theme := some "__proto__" }]).map countOf).sum = 1 ∧
      [({ title := some "A", theme := some "Other" } : Post),
        { title := some "B", theme := some "__proto__" }].length = 2 := by
  decide

/-! ## Decimal numerals -/

/-- One step of `digitsValue`. -/
theorem digitsValue_step (a k : Nat) (hk : k < 10) :
    (if 48 ≤ (Nat.digitChar k).toNat ∧ (Nat.digitChar k).toNat ≤ 57 then
        some (10 * a + ((Nat.digitChar k).toNat - 48)) else none) = some (10 * a + k) := by
  interval_cases k <;> rfl

theorem toDigitsCore_value (fuel : Nat) : ∀ (n : Nat) (ds : List Char), n < fuel →
    ∃ pre, Nat.toDigitsCore 10 fuel n ds = pre ++ ds ∧ pre ≠ [] ∧
      pre.foldl (fun acc c => acc.bind fun m =>
        if 48 ≤ c.toNat ∧ c.toNat ≤ 57 then some (10 * m + (c.toNat - 48)) else none)
        (some 0) = some n := by
  induction fuel with
  | zero => intro n ds h; omega
  | succ fuel ih =>
    intro n ds h
    rw [Nat.toDigitsCore]
    by_cases h0 : n / 10 = 0
    · simp only [h0, if_true]
      refine ⟨[Nat.digitChar (n % 10)], rfl, by simp, ?_⟩
      have hn : n % 10 = n := by omega
      have := digitsValue_step 0 (n % 10) (Nat.mod_lt _ (by decide))
      simpa [hn] using this
    · simp only [h0, if_false]
      obtain ⟨pre, hpre, _, hval⟩ := ih (n / 10) (Nat.digitChar (n % 10) :: ds) (by omega)
      refine ⟨pre ++ [Nat.digitChar (n % 10)], by simp [hpre], by simp, ?_⟩
      rw [List.foldl_append, hval]
      have := digitsValue_step (n / 10) (n % 10) (Nat.mod_lt _ (by decide))
      simp only [List.foldl_cons, List.foldl_nil, Option.some_bind]
      rw [this]
      congr 1
      omega

/-- Reading back the decimal numeral of `n` gives `n`. -/
theorem digitsValue_toString (n : Nat) : digitsValue (toString n).toList = some n := by
  obtain ⟨pre, hpre, hne, hval⟩ := toDigitsCore_value (n + 1) n [] (Nat.lt_succ_self n)
  have hs : (toString n).toList = pre := by
    show (Nat.repr n).toList = pre
    simp [Nat.repr, Nat.toDigits, hpre, List.asString]
  rw [hs, digitsValue, if_neg hne]
  exact hval

/-- Distinct numbers have distinct decimal numerals. -/
theorem toString_nat_injective {a b : Nat} (h : toString a = toString b) : a = b := by
  have ha := digitsValue_toString a
  rw [h, digitsValue_toString b] at ha
  exact (Option.some.inj ha).symm



/-! ## Rejection of an empty title (C11) -/

/-- Claim C11 is false as stated: `addPost` called with a post whose title is
empty returns normally and the collection grows by that post; and a feed item
with an empty title that is no duplicate is added by ingestion. -/
theorem addPost_empty_title_accepted :
    addPostCall [] 1700000000000 1700000000000 { title := some "" } =
        .returned [{ id := some "1700000000000", addedAt := some "2023-11-14T22:13:20.000Z",
                     title := some "" }] ∧
      (fetchRssPosts [] (fun _ _ => fallbackClassification)
          (fun _ => (1700000000000, 1700000000000))
          [{ title := some "", link := some "https://s/1" }]).collection.map
            (fun p => p.title) = [some ""] := by
  decide

/-- Claim C11 as amended.  Manual entry with an empty title does nothing: the
handler returns normally without calling `addPost` and the collection is
unchanged, no error being signalled.  Manual entry with a non-empty title adds
the post whatever the optional fields hold, empty or not.  `addPost` itself
makes no check and never rejects: it returns normally with a collection one
post longer, for every post. -/
theorem handleSubmit_title_guard (posts : List Post) (form : AddForm) (tPub tId tAt : Nat) :
    (form.title = "" → handleSubmit posts form tPub tId tAt = .returned posts) ∧
      (form.title ≠ "" →
        ∃ q, handleSubmit posts form tPub tId tAt = .returned (q :: posts) ∧
          q.title = some form.title ∧ q.content = some form.content ∧
          q.url = some form.url ∧ q.keyInsight = some form.keyInsight) ∧
      ∀ post : Post, addPostCall posts tId tAt post = .returned (addPost posts tId tAt post) ∧
        (addPost posts tId tAt post).length = posts.length + 1 := by
  refine ⟨?_, ?_, ?_⟩
  · intro h
    simp [handleSubmit, h]
  · intro h
    simp [handleSubmit, h, addPostCall, addPost]
  · intro post
    exact ⟨rfl, length_addPost posts tId tAt post⟩

/-- Instance of `handleSubmit_title_guard`: a form with only a title filled in
is accepted. -/
theorem handleSubmit_title_guard_witness :
    ∃ q, handleSubmit [] { title := "Note" } 1700000000000 1700000000001 1700000000001 =
        .returned (q :: []) ∧
      q.title = some "Note" ∧ q.content = some "" ∧ q.url = some "" ∧ q.keyInsight = some "" :=
  (handleSubmit_title_guard [] { title := "Note" } 1700000000000 1700000000001
    1700000000001).2.1 (by decide)

/-! ## Update and delete (C12-C15) -/

theorem updatePost_eq_self (c : List Post) (id : Option String) (updates : Updates)
    (h : ∀ p ∈ c, p.id ≠ id) : updatePost c id updates = c := by
  unfold updatePost
  conv_rhs => rw [← List.map_id c]
  apply List.map_congr_left
  intro p hp
  simp [h p hp]

theorem deletePost_eq_self (c : List Post) (id : Option String)
    (h : ∀ p ∈ c, p.id ≠ id) : deletePost c id = c := by
  unfold deletePost
  rw [List.filter_eq_self]
  intro p hp
  simpa using h p hp

/-- Claim C12.  For every collection `c`, every id that no post of `c` carries
and every set of field updates, `updatePost` yields `c` itself: the same posts
with the same field values in the same order. -/
theorem updatePost_absent_id (c : List Post) (id : Option String) (updates : Updates)
    (h : ∀ p ∈ c, p.id ≠ id) : updatePost c id updates = c :=
  updatePost_eq_self c id updates h

/-- Instance of `updatePost_absent_id`: `update("missing-id", {theme: "Other"})`
on a collection of two posts. -/
theorem updatePost_absent_id_witness :
    updatePost [{ id := some "1700000000000", title := some "A", theme := some "Global Macro" },
        { id := some "1700000000001", title := some "B" }]
      (some "missing-id") { theme := some (some "Other") } =
      [{ id := some "1700000000000", title := some "A", theme := some "Global Macro" },
        { id := some "1700000000001", title := some "B" }] :=
  updatePost_absent_id _ _ _ (by decide)

/-- Claim C13 is false as stated: `update("missing-id", {theme: "Other"})`
returns normally, handing the unchanged collection to `savePosts`; nothing is
signalled to the caller. -/
theorem updatePostCall_missing_id_returns :
    updatePostCall [{ id := some "1700000000000", title := some "A" }]
        (some "missing-id") { theme := some (some "Other") } =
      .returned [{ id := some "1700000000000", title := some "A" }] := by
  decide

/-- Claim C13 as amended.  Called with an id that no post of the collection
carries, neither `updatePost` nor `deletePost` signals anything: both return
normally and leave the collection as it was. -/
theorem updatePostCall_deletePostCall_absent_id (c : List Post) (id : Option String)
    (updates : Updates) (h : ∀ p ∈ c, p.id ≠ id) :
    updatePostCall c id updates = .returned c ∧ deletePostCall c id = .returned c := by
  rw [updatePostCall, deletePostCall, updatePost_eq_self c id updates h,
    deletePost_eq_self c id h]
  exact ⟨rfl, rfl⟩

/-- Instance of `updatePostCall_deletePostCall_absent_id` on a one-post
collection and the id "missing-id". -/
theorem updatePostCall_deletePostCall_absent_id_witness :
    updatePostCall [{ id := some "1700000000000", title := some "A" }] (some "missing-id")
        { theme := some (some "Other") } =
        .returned [{ id := some "1700000000000", title := some "A" }] ∧
      deletePostCall [{ id := some "1700000000000", title := some "A" }] (some "missing-id") =
        .returned [{ id := some "1700000000000", title := some "A" }] :=
  updatePostCall_deletePostCall_absent_id _ _ _ (by decide)

/-- Claim C14 is false as stated: an update that names the field `id` replaces
the id of the matching post, and one that names `addedAt` replaces its
`addedAt`. -/
theorem updatePost_overwrites_id :
    (updatePost [{ id := some "1700000000000", addedAt := some "2023-11-14T22:13:20.000Z" }]
        (some "1700000000000")
        { id := some (some "42"), addedAt := some (some "2000-01-01T00:00:00.000Z") }).map
        (fun p => (p.id, p.addedAt)) =
      [(some "42", some "2000-01-01T00:00:00.000Z")] := by
  decide

/-- Claim C14 as amended.  For every collection, every id and every set of
field updates that names neither `id` nor `addedAt`, `updatePost` keeps the
sequence of (id, addedAt) pairs, hence the length and the order; this covers
every update the edit form sends, which names `theme` and `keyInsight` only. -/
theorem updatePost_keeps_id_addedAt (c : List Post) (id : Option String) (updates : Updates)
    (theme keyInsight : String) (hid : updates.id = none) (hat : updates.addedAt = none) :
    (updatePost c id updates).map (fun p => (p.id, p.addedAt)) =
        c.map (fun p => (p.id, p.addedAt)) ∧
      (updatePost c id updates).length = c.length ∧
      (updatePost c id (editUpdates theme keyInsight)).map (fun p => (p.id, p.addedAt)) =
        c.map (fun p => (p.id, p.addedAt)) := by
  refine ⟨?_, by simp [updatePost], ?_⟩
  · rw [updatePost, List.map_map]
    apply List.map_congr_left
    intro p _
    by_cases hp : p.id = id <;> simp [hp, merge, hid, hat]
  · rw [updatePost, List.map_map]
    apply List.map_congr_left
    intro p _
    by_cases hp : p.id = id <;> simp [hp, merge, editUpdates]

/-- Instance of `updatePost_keeps_id_addedAt`: the theme of the first of two
posts is edited. -/
theorem updatePost_keeps_id_addedAt_witness :
    (updatePost [{ id := some "1700000000000", addedAt := some "2023-11-14T22:13:20.000Z" },
          { id := some "1700000000001", addedAt := some "2023-11-14T22:13:20.001Z" }]
        (some "1700000000000") { theme := some (some "Other"), url := some none }).map
        (fun p => (p.id, p.addedAt)) =
        [({ id := some "1700000000000", addedAt := some "2023-11-14T22:13:20.000Z" } : Post),
          { id := some "1700000000001", addedAt := some "2023-11-14T22:13:20.001Z" }].map
        (fun p => (p.id, p.addedAt)) ∧
      (updatePost [{ id := some "1700000000000", addedAt := some "2023-11-14T22:13:20.000Z" },
          { id := some "1700000000001", addedAt := some "2023-11-14T22:13:20.001Z" }]
        (some "1700000000000") { theme := some (some "Other"), url := some none }).length =
        [({ id := some "1700000000000", addedAt := some "2023-11-14T22:13:20.000Z" } : Post),
          { id := some "1700000000001", addedAt := some "2023-11-14T22:13:20.001Z" }].length ∧
      (updatePost [{ id := some "1700000000000", addedAt := some "2023-11-14T22:13:20.000Z" },
          { id := some "1700000000001", addedAt := some "2023-11-14T22:13:20.001Z" }]
        (some "1700000000000") (editUpdates "Other" "")).map (fun p => (p.id, p.addedAt)) =
        [({ id := some "1700000000000", addedAt := some "2023-11-14T22:13:20.000Z" } : Post),
          { id := some "1700000000001", addedAt := some "2023-11-14T22:13:20.001Z" }].map
        (fun p => (p.id, p.addedAt)) :=
  updatePost_keeps_id_addedAt _ _ _ "Other" "" rfl rfl

/-- Claim C15.  For every collection `c` and id, `deletePost` yields a
collection without any post carrying the id, in which every other post occurs
as often as in `c` and in the order of `c`; deleting the same id again changes
nothing; when no post of `c` carries the id the result is `c`; and the call
returns normally in every case. -/
theorem deletePost_spec (c : List Post) (id : Option String) :
    (∀ p ∈ deletePost c id, p.id ≠ id) ∧
      (deletePost c id).Sublist c ∧
      (∀ p : Post, p.id ≠ id → (deletePost c id).count p = c.count p) ∧
      deletePost (deletePost c id) id = deletePost c id ∧
      ((∀ p ∈ c, p.id ≠ id) → deletePost c id = c) ∧
      deletePostCall c id = .returned (deletePost c id) := by
  refine ⟨?_, ?_, ?_, ?_, deletePost_eq_self c id, rfl⟩
  · intro p hp
    simpa [deletePost] using (List.mem_filter.1 hp).2
  · exact List.filter_sublist c
  · intro p hp
    simp [deletePost, List.count_filter, hp]
  · simp [deletePost, List.filter_filter]

/-- Instance of `deletePost_spec`: deleting an id that no post carries. -/
theorem deletePost_spec_witness :
    deletePost [{ id := some "1700000000000", title := some "A" },
        { id := some "1700000000001", title := some "B" }] (some "missing-id") =
      [{ id := some "1700000000000", title := some "A" },
        { id := some "1700000000001", title := some "B" }] :=
  (deletePost_spec _ _).2.2.2.2.1 (by decide)



/-! ## Identifiers (C16) -/

theorem addPosts_ids (c : List Post) (calls : List AddCall) :
    (addPosts c calls).map (fun p => p.id) =
      (calls.map fun k => some (toString k.tId)).reverse ++ c.map (fun p => p.id) := by
  unfold addPosts
  induction calls generalizing c with
  | nil => simp
  | cons k ks ih =>
    rw [List.foldl_cons, ih]
    simp [addPost]

/-- Claim C16 is false as stated: two `addPost` calls whose `Date.now()`
readings fall in the same millisecond give two posts with the same id. -/
theorem addPosts_same_millisecond_collide :
    (addPosts [] [{ tId := 1700000000000, tAt := 1700000000000, post := { title := some "A" } },
        { tId := 1700000000000, tAt := 1700000000000, post := { title := some "B" } }]).map
        (fun p => p.id) = [some "1700000000000", some "1700000000000"] ∧
      ¬ ((addPosts []
          [{ tId := 1700000000000, tAt := 1700000000000, post := { title := some "A" } },
            { tId := 1700000000000, tAt := 1700000000000, post := { title := some "B" } }]).map
          (fun p => p.id)).Nodup := by
  decide

/-- Claim C16 as amended.  Ids are the decimal renderings of the `Date.now()`
readings: starting from a collection with pairwise distinct ids, after any
sequence of `addPost` calls whose readings are pairwise distinct and none of
whose renderings is already an id of the collection, all posts have pairwise
distinct ids. -/
theorem addPosts_ids_nodup (c : List Post) (calls : List AddCall)
    (hc : (c.map fun p => p.id).Nodup)
    (hcalls : (calls.map fun k => k.tId).Nodup)
    (hfresh : ∀ k ∈ calls, ∀ p ∈ c, p.id ≠ some (toString k.tId)) :
    ((addPosts c calls).map fun p => p.id).Nodup := by
  rw [addPosts_ids, List.nodup_append]
  refine ⟨?_, hc, ?_⟩
  · rw [List.nodup_reverse]
    have hinj : Function.Injective fun n : Nat => some (toString n) := by
      intro a b hab
      exact toString_nat_injective (Option.some.inj hab)
    have := hcalls.map hinj
    simpa [List.map_map, Function.comp] using this
  · intro x hx hx'
    rw [List.mem_reverse, List.mem_map] at hx
    obtain ⟨k, hk, rfl⟩ := hx
    rw [List.mem_map] at hx'
    obtain ⟨p, hp, hpid⟩ := hx'
    exact hfresh k hk p hp hpid

/-- Instance of `addPosts_ids_nodup`: two adds one millisecond apart to a
collection holding one older post. -/
theorem addPosts_ids_nodup_witness :
    ((addPosts [{ id := some "1699999999999", title := some "Old" }]
        [{ tId := 1700000000000, tAt := 1700000000000, post := { title := some "A" } },
          { tId := 1700000000001, tAt := 1700000000001, post := { title := some "B" } }]).map
        fun p => p.id).Nodup :=
  addPosts_ids_nodup _ _ (by decide) (by decide) (by decide)

/-! ## Grouping by theme in the report endpoint (C17) -/

theorem lookup_map_pair {β : Type} (f : String → β) (ks : List String) (t : String) :
    (ks.map fun k => (k, f k)).lookup t = if t ∈ ks then some (f t) else none := by
  induction ks with
  | nil => simp
  | cons k ks ih =>
    rw [List.map_cons, List.lookup_cons, ih]
    by_cases h : t = k
    · subst h
      simp
    · have : (t == k) = false := by simpa using h
      simp [this, h]

theorem pushGroup_groupsOf (pre : List Post) (p : Post) (hp : themeOf p ∉ protoNames) :
    pushGroup (groupsOf pre) p = .returned (groupsOf (pre ++ [p])) := by
  unfold pushGroup
  rw [groupsOf, lookup_map_pair, ← groupsOf]
  by_cases hmem : themeOf p ∈ pre.map themeOf
  · have hmem' : themeOf p ∈ firstSeen (pre.map themeOf) := mem_firstSeen.2 hmem
    simp only [hmem', if_true]
    congr 1
    rw [groupsOf, groupsOf, List.map_append, List.map_singleton, firstSeen_append_singleton,
      if_pos hmem, List.map_map]
    apply List.map_congr_left
    intro k _
    by_cases hk : k = themeOf p
    · simp [hk, List.filter_append]
    · have hk' : ¬ themeOf p = k := fun h => hk h.symm
      simp [hk, hk', List.filter_append]
  · have hmem' : themeOf p ∉ firstSeen (pre.map themeOf) := fun h => hmem (mem_firstSeen.1 h)
    simp only [hmem', if_false, hp]
    congr 1
    rw [groupsOf, groupsOf, List.map_append, List.map_singleton, firstSeen_append_singleton,
      if_neg hmem, List.map_append]
    congr 1
    · apply List.map_congr_left
      intro k hk
      have hkt : ¬ themeOf p = k := fun h => hmem (h ▸ mem_firstSeen.1 hk)
      simp [List.filter_append, hkt]
    · have hnone : pre.filter (fun q => decide (themeOf q = themeOf p)) = [] := by
        rw [List.filter_eq_nil_iff]
        intro q hq hqt
        exact hmem (List.mem_map.2 ⟨q, hq, by simpa using hqt⟩)
      simp [List.filter_append, hnone]

theorem buildThemeGroups_groupsOf (pre posts : List Post)
    (h : ∀ p ∈ posts, themeOf p ∉ protoNames) :
    buildThemeGroups (groupsOf pre) posts = .returned (groupsOf (pre ++ posts)) := by
  induction posts generalizing pre with
  | nil => simp [buildThemeGroups]
  | cons p ps ih =>
    rw [buildThemeGroups, pushGroup_groupsOf pre p (h p (List.mem_cons_self _ _))]
    simp only
    rw [ih (pre ++ [p]) fun q hq => h q (List.mem_cons_of_mem _ hq)]
    simp

theorem groupSizes_groupsOf (posts : List Post) :
    groupSizes (groupsOf posts) = (tallyOf (posts.map themeOf)).map countOf := by
  simp only [groupSizes, groupsOf, tallyOf, List.map_map]
  apply List.map_congr_left
  intro k _
  simp only [Function.comp, countOf]
  rw [List.count_eq_countP, List.countP_map, List.countP_eq_length_filter]
  congr 1

/-- On a list of posts none of whose themes names an inherited property, the
grouping of the report endpoint succeeds with one group per theme, in order of
first encounter, each holding the posts of its theme in their original order;
the group sizes sum to the number of posts. -/
theorem buildThemeGroups_plain (posts : List Post) (h : ∀ p ∈ posts, themeOf p ∉ protoNames) :
    buildThemeGroups [] posts = .returned (groupsOf posts) ∧
      (groupSizes (groupsOf posts)).sum = posts.length := by
  constructor
  · have := buildThemeGroups_groupsOf [] posts h
    simpa [groupsOf, firstSeen] using this
  · rw [groupSizes_groupsOf, sum_countOf_tallyOf, List.length_map]

/-- Claim C17, evaluated at a failing input.  Of two posts, one has the theme
"__proto__".  For the first post a group "Other" is created; for the second the
read `themeGroups[t]` yields the prototype object, which is truthy, so no array
is created and `themeGroups[t].push(p)` throws: no grouping is built (the
handler's `catch` answers "Failed to generate report"), whereas the claim
places each post in the group of its theme. -/
theorem buildThemeGroups_proto_theme_throws :
    pushGroup [] { title := some "A", theme := some "Other" } =
        .returned [("Other", [{ title := some "A", theme := some "Other" }])] ∧
      buildThemeGroups [] [{ title := some "A", theme := some "Other" },
          { title := some "B", theme := some "__proto__" }] =
        .threw "TypeError: themeGroups[t].push is not a function" := by
  decide

/-! ## Classification (C18, C19) -/

/-- Claim C18.  `classifyPost` returns the fallback
`{theme: "Other", keyInsight: "", tags: []}` when the request is rejected, when
the answer has a non-OK status, and when an OK answer has no JSON body; in
particular that is what the client gets from the endpoint when the credential
is missing, when the upstream request fails and when the cleaned upstream text
does not parse.  Being a total function into bodies, it throws in no case. -/
theorem classifyPost_fallback {J : Type} (parse : String → Option J) (apiKey : Option String)
    (req : ClassifyRequest) (text : Option String) (status : Nat)
    (body : Option (ClassifyBody J)) :
    classifyPost (.rejected : ClientFetch J) = .literal fallbackClassification ∧
      (¬ (200 ≤ status ∧ status ≤ 299) →
        classifyPost (.responded status body) = .literal fallbackClassification) ∧
      classifyPost (.responded 200 (none : Option (ClassifyBody J))) =
        .literal fallbackClassification ∧
      (truthy apiKey = false →
        classifyViaEndpoint parse apiKey req (.answered text) =
          .literal fallbackClassification) ∧
      classifyViaEndpoint parse apiKey req .failed = .literal fallbackClassification ∧
      (parse (clean (orElse text "")) = none →
        classifyViaEndpoint parse apiKey req (.answered text) =
          .literal fallbackClassification) := by
  refine ⟨rfl, ?_, rfl, ?_, ?_, ?_⟩
  · intro h
    simp [classifyPost, h]
  · intro h
    simp only [classifyViaEndpoint, classifyPOST, h]
    by_cases h1 : (!truthy req.title && !truthy req.content) = true <;>
      simp [h1, classifyPost]
  · simp only [classifyViaEndpoint, classifyPOST]
    by_cases h1 : (!truthy req.title && !truthy req.content) = true <;>
      by_cases h2 : (!truthy apiKey) = true <;> simp [h1, h2, classifyPost]
  · intro h
    simp only [classifyViaEndpoint, classifyPOST, h]
    by_cases h1 : (!truthy req.title && !truthy req.content) = true <;>
      by_cases h2 : (!truthy apiKey) = true <;> simp [h1, h2, classifyPost]

/-- Instance of `classifyPost_fallback`: an answer with status 500, and the
endpoint reached without credential. -/
theorem classifyPost_fallback_witness :
    classifyPost (.responded 500 (some (.literal missingKeyClassification)) :
        ClientFetch String) = .literal fallbackClassification ∧
      classifyViaEndpoint (fun _ => (none : Option String)) none
          { title := some "X", content := some "" } (.answered (some "\x7b\x7d")) =
        .literal fallbackClassification :=
  ⟨(classifyPost_fallback (fun _ => (none : Option String)) none
      { title := some "X", content := some "" } (some "\x7b\x7d") 500
      (some (.literal missingKeyClassification))).2.1 (by decide),
    (classifyPost_fallback (fun _ => (none : Option String)) none
      { title := some "X", content := some "" } (some "\x7b\x7d") 500
      (some (.literal missingKeyClassification))).2.2.2.1 rfl⟩

/-- Claim C19 is false for the classification the application obtains: for the
request `{title: "X", content: ""}` without credential the endpoint answers
with status 500, and `classifyPost`, which reads no body of a non-OK answer,
returns a key insight that is empty, not "API Key missing". -/
theorem classifyViaEndpoint_missing_key :
    classifyViaEndpoint (fun _ => (none : Option String)) none
        { title := some "X", content := some "" } .failed =
        .literal { theme := some "Other", keyInsight := some "", tags := [] } ∧
      classifyViaEndpoint (fun _ => (none : Option String)) none
        { title := some "X", content := some "" } .failed ≠
        .literal { theme := some "Other", keyInsight := some "API Key missing", tags := [] } := by
  decide

/-- Claim C19 as amended.  For every classification request with a non-empty
title or content, when the credential is absent the endpoint answers with
status 500 and the body `{theme: "Other", keyInsight: "API Key missing",
tags: []}` without any upstream call; `classifyPost`, receiving that non-OK
answer, returns the fallback `{theme: "Other", keyInsight: "", tags: []}`. -/
theorem classifyPOST_missing_key {J : Type} (parse : String → Option J)
    (apiKey : Option String) (req : ClassifyRequest) (upstream : Upstream)
    (hreq : truthy req.title = true ∨ truthy req.content = true)
    (hkey : truthy apiKey = false) :
    classifyPOST parse apiKey (some req) upstream =
        { status := 500, body := .literal missingKeyClassification, upstreamCalls := 0 } ∧
      missingKeyClassification =
        { theme := some "Other", keyInsight := some "API Key missing", tags := [] } ∧
      classifyViaEndpoint parse apiKey req upstream = .literal fallbackClassification := by
  have h1 : (!truthy req.title && !truthy req.content) = false := by
    rcases hreq with h | h <;> simp [h]
  refine ⟨?_, rfl, ?_⟩
  · simp [classifyPOST, h1, hkey]
  · simp [classifyViaEndpoint, classifyPOST, h1, hkey, classifyPost]

/-- Instance of `classifyPOST_missing_key`: the request `{title: "X",
content: ""}` without credential. -/
theorem classifyPOST_missing_key_witness :
    classifyPOST (fun _ => (none : Option String)) none
        (some { title := some "X", content := some "" }) (.answered (some "\x7b\x7d")) =
        { status := 500, body := .literal missingKeyClassification, upstreamCalls := 0 } ∧
      missingKeyClassification =
        { theme := some "Other", keyInsight := some "API Key missing", tags := [] } ∧
      classifyViaEndpoint (fun _ => (none : Option String)) none
        { title := some "X", content := some "" } (.answered (some "\x7b\x7d")) =
        .literal fallbackClassification :=
  classifyPOST_missing_key (fun _ => (none : Option String)) none
    { title := some "X", content := some "" } (.answered (some "\x7b\x7d"))
    (Or.inl (by decide)) rfl

/-! ## Cleaning of the upstream text (C20) -/


theorem stripFences_append (q s : List Char) (h : FenceFree q s) :
    stripFences 0 (q ++ s) = q ++ stripFences 0 s := by
  induction q with
  | nil => rfl
  | cons c cs ih =>
    have hc : ¬ "```".toList <+: (c :: cs ++ s) :=
      h (c :: cs) (by simp) (List.suffix_refl _)
    have hj : ¬ "```json".toList <+: (c :: cs ++ s) := by
      intro hp
      exact hc ((List.prefix_append "```".toList "json".toList).trans hp)
    have ih' := ih fun r hr hsuf => h r hr (hsuf.trans (List.suffix_cons c cs))
    rw [List.cons_append, stripFences]
    simp only [List.isPrefixOf_iff_prefix, ← List.cons_append, hj, hc, if_false,
      decide_False, Bool.false_eq_true]
    rw [ih']
    rfl



theorem fence_toList : "```".toList = [Char.ofNat 96, Char.ofNat 96, Char.ofNat 96] := by
  decide

theorem fenceFree_nil (q : List Char) (h : ¬ "```".toList <:+: q) : FenceFree q [] := by
  intro r _ hsuf hpre
  rw [List.append_nil] at hpre
  exact h (hpre.isInfix.trans hsuf.isInfix)

theorem fenceFree_newline (q t : List Char) (h : ¬ "```".toList <:+: q) :
    FenceFree q ('\n' :: t) := by
  intro r hr hsuf hpre
  have hnot : ¬ "```".toList <+: r := fun hp =>
    h (hp.isInfix.trans hsuf.isInfix)
  rw [fence_toList] at hpre hnot
  match r, hr with
  | [a], _ =>
    obtain ⟨u, hu⟩ := hpre
    simp only [List.cons_append, List.nil_append, List.cons.injEq] at hu
    exact absurd hu.2.1 (by decide)
  | [a, b], _ =>
    obtain ⟨u, hu⟩ := hpre
    simp only [List.cons_append, List.nil_append, List.cons.injEq] at hu
    exact absurd hu.2.2.1 (by decide)
  | a :: b :: c :: r', _ =>
    obtain ⟨u, hu⟩ := hpre
    simp only [List.cons_append, List.nil_append, List.cons.injEq] at hu
    apply hnot
    refine ⟨r', ?_⟩
    simp [← hu.1, ← hu.2.1, ← hu.2.2.1]

theorem stripFences_fenced (q : List Char) (h : ¬ "```".toList <:+: q) :
    stripFences 0 ("```json\n".toList ++ q ++ "\n```".toList) = '\n' :: (q ++ ['\n']) := by
  have h1 : ∀ X : List Char,
      stripFences 0 ("```json\n".toList ++ X) = '\n' :: stripFences 0 X := fun X => rfl
  have h2 : stripFences 0 "\n```".toList = ['\n'] := by decide
  have h3 : "\n```".toList = '\n' :: "```".toList := by decide
  rw [List.append_assoc, h1, h3, stripFences_append q _ (fenceFree_newline q _ h), ← h3, h2]

theorem stripFences_bare (q : List Char) (h : ¬ "```".toList <:+: q) :
    stripFences 0 q = q := by
  have := stripFences_append q [] (fenceFree_nil q h)
  simpa [stripFences] using this

theorem trimChars_wrapped (x y : Char) (l : List Char) (hx : isJsWhitespace x = true)
    (hy : isJsWhitespace y = true) : trimChars (x :: (l ++ [y])) = trimChars l := by
  unfold trimChars
  rw [List.dropWhile_cons_of_pos hx, List.dropWhile_append]
  by_cases hl : (List.dropWhile isJsWhitespace l).isEmpty = true
  · have hnil : List.dropWhile isJsWhitespace l = [] := List.isEmpty_iff.1 hl
    simp [hl, hnil, hy, List.rdropWhile_nil]
  · simp only [hl, if_false, Bool.false_eq_true]
    exact List.rdropWhile_concat_pos _ _ _ hy

theorem clean_fenced_eq (p : String) (h : ¬ "```".toList <:+: p.toList) :
    clean ("```json\n" ++ p ++ "\n```") = String.mk (trimChars p.toList) ∧
      clean p = String.mk (trimChars p.toList) := by
  constructor
  · unfold clean
    have : ("```json\n" ++ p ++ "\n```").toList =
        "```json\n".toList ++ p.toList ++ "\n```".toList := by
      simp [String.toList]
    rw [this, stripFences_fenced p.toList h,
      trimChars_wrapped '\n' '\n' p.toList (by decide) (by decide)]
  · unfold clean
    rw [stripFences_bare p.toList h]



/-- Claim C20.  For every payload text `p` that contains no triple backtick,
cleaning "```json\n" + p + "\n```" yields `p` trimmed, which is also what
cleaning the bare `p` yields, so the endpoint (with a credential and a
non-empty title or content) gives the same answer for the fenced and for the
bare upstream text; and an upstream text whose cleaned form fails to parse
produces the failure response with theme "Other" and tags `[]` under status
500 instead of a result. -/
theorem clean_fenced_payload {J : Type} (parse : String → Option J) (apiKey : Option String)
    (req : ClassifyRequest) (p : String) (text : Option String)
    (hp : ¬ "```".toList <:+: p.toList) (hkey : truthy apiKey = true)
    (hreq : truthy req.title = true ∨ truthy req.content = true) :
    clean ("```json\n" ++ p ++ "\n```") = String.mk (trimChars p.toList) ∧
      clean p = String.mk (trimChars p.toList) ∧
      classifyPOST parse apiKey (some req) (.answered (some ("```json\n" ++ p ++ "\n```"))) =
        classifyPOST parse apiKey (some req) (.answered (some p)) ∧
      (parse (clean (orElse text "")) = none →
        classifyPOST parse apiKey (some req) (.answered text) =
          { status := 500,
            body := .literal
              { theme := some "Other", keyInsight := some "Error classifying content",
                tags := [] },
            upstreamCalls := 1 }) := by
  have hor : ∀ s : String, orElse (some s) "" = s := by
    intro s
    by_cases hs : s = "" <;> simp [orElse, hs]
  have h1 : (!truthy req.title && !truthy req.content) = false := by
    rcases hreq with h | h <;> simp [h]
  obtain ⟨hf, hb⟩ := clean_fenced_eq p hp
  refine ⟨hf, hb, ?_, ?_⟩
  · simp only [classifyPOST, hor, hf, hb]
  · intro hparse
    simp [classifyPOST, h1, hkey, hparse, errorClassification]

/-- Instance of `clean_fenced_payload`: a fenced JSON object, and an upstream
text that does not parse. -/
theorem clean_fenced_payload_witness :
    clean ("```json\n" ++ " \x7b\"theme\": \"Other\"\x7d " ++ "\n```") =
        String.mk (trimChars " \x7b\"theme\": \"Other\"\x7d ".toList) ∧
      classifyPOST (fun s => if s = "\x7b\"theme\": \"Other\"\x7d" then some 1 else none)
          (some "key") (some { title := some "X", content := some "" })
          (.answered (some "I cannot classify this.")) =
        { status := 500,
          body := .literal
            { theme := some "Other", keyInsight := some "Error classifying content",
              tags := [] },
          upstreamCalls := 1 } :=
  ⟨(clean_fenced_payload (fun s => if s = "\x7b\"theme\": \"Other\"\x7d" then some 1 else none)
      (some "key") { title := some "X", content := some "" } " \x7b\"theme\": \"Other\"\x7d "
      (some "I cannot classify this.") (by decide) (by decide) (Or.inl (by decide))).1,
    (clean_fenced_payload (fun s => if s = "\x7b\"theme\": \"Other\"\x7d" then some 1 else none)
      (some "key") { title := some "X", content := some "" } " \x7b\"theme\": \"Other\"\x7d "
      (some "I cannot classify this.") (by decide) (by decide) (Or.inl (by decide))).2.2.2 (by decide)⟩

/-! ## The prompt of the classification endpoint (C21) -/

theorem length_promptContent (content : Option String) : (promptContent content).length ≤ 1000 := by
  cases content with
  | none => decide
  | some s => simp [promptContent, substringUnits, List.length_take]

theorem classifyUpstreamPrompt_isSome {J : Type} (parse : String → Option J)
    (apiKey : Option String) (req : Option ClassifyRequest) (upstream : Upstream) :
    (classifyUpstreamPrompt apiKey req).isSome =
      decide ((classifyPOST parse apiKey req upstream).upstreamCalls = 1) := by
  cases req with
  | none => rfl
  | some r =>
    simp only [classifyUpstreamPrompt, classifyPOST]
    by_cases h1 : (!truthy r.title && !truthy r.content) = true
    · simp [h1]
    · by_cases h2 : (!truthy apiKey) = true
      · simp [h1, h2]
      · cases upstream with
        | failed => simp [h1, h2]
        | answered text =>
          cases hp : parse (clean (orElse text "")) <;> simp [h1, h2, hp]

/-- Claim C21.  For every classification request that supplies a content `s`,
the prompt sent upstream is the fixed text, the title, and the first 1000
UTF-16 code units of `s`, followed by the fixed format instruction; these are
all of `s` when `s` has at most 1000 units.  For every request, with or without
content, the content part of the prompt has at most 1000 units. -/
theorem classifyPrompt_content_truncated (apiKey : Option String) (req : ClassifyRequest)
    (s : String) (prompt : List Nat) (hs : req.content = some s)
    (hsent : classifyUpstreamPrompt apiKey (some req) = some prompt) :
    prompt = utf16Units promptHead ++ utf16Units (templateText req.title) ++
        utf16Units promptMiddle ++ (utf16Units s).take 1000 ++ utf16Units promptTail ∧
      ((utf16Units s).take 1000).length ≤ 1000 ∧
      ((utf16Units s).length ≤ 1000 → (utf16Units s).take 1000 = utf16Units s) ∧
      ∀ content : Option String, (promptContent content).length ≤ 1000 := by
  refine ⟨?_, by simp [List.length_take], fun h => List.take_of_length_le h,
    length_promptContent⟩
  simp only [classifyUpstreamPrompt] at hsent
  split at hsent
  · exact absurd hsent (by simp)
  · split at hsent
    · exact absurd hsent (by simp)
    · rw [← Option.some.inj hsent, classifyPrompt, hs, promptContent, substringUnits]
      simp

/-- Instance of `classifyPrompt_content_truncated`: a content of 1500 letters,
of which 1000 reach the prompt. -/
theorem classifyPrompt_content_truncated_witness :
    ((utf16Units (String.mk (List.replicate 1500 'a'))).take 1000).length ≤ 1000 :=
  (classifyPrompt_content_truncated (some "key")
    { title := some "X", content := some (String.mk (List.replicate 1500 'a')) }
    (String.mk (List.replicate 1500 'a'))
    (classifyPrompt (some "X") (some (String.mk (List.replicate 1500 'a')))) rfl rfl).2.1

/-! ## Report generation (C22, C23) -/

/-- Claim C22.  For every request whose posts list is missing or empty the
report endpoint answers with status 400 and the error "No posts provided",
making no upstream call, whatever the credential and whatever the upstream
would answer; and `generateReport` on an empty collection issues no request,
shows nothing and leaves the draft as it was. -/
theorem reportPOST_no_posts (apiKey : Option String) (req : ReportRequest)
    (upstream : ReportUpstream) (fmt : String → String) (reportDraft : Option ReportDraft)
    (now : Nat) (fetched : ReportFetch) (h : req.posts = none ∨ req.posts = some []) :
    reportPOST apiKey (some req) upstream =
        { status := 400, body := .error "No posts provided", upstreamCalls := 0 } ∧
      generateReport fmt [] reportDraft now fetched =
        { reportDraft := reportDraft, requests := 0, alert := none, threw := false } := by
  refine ⟨?_, rfl⟩
  rcases h with h | h <;> simp [reportPOST, h]

/-- Instance of `reportPOST_no_posts`: the request `{ posts: [] }` with a
credential configured. -/
theorem reportPOST_no_posts_witness :
    reportPOST (some "key") (some { posts := some [], dateRange := some "N/A" })
        (.answered (some [some "text"])) =
        { status := 400, body := .error "No posts provided", upstreamCalls := 0 } ∧
      generateReport fmtMonthYear [] none 1700000000000 .rejected =
        { reportDraft := none, requests := 0, alert := none, threw := false } :=
  reportPOST_no_posts (some "key") { posts := some [], dateRange := some "N/A" }
    (.answered (some [some "text"])) fmtMonthYear none 1700000000000 .rejected (Or.inr rfl)

/-- Claim C23 is false as stated: for a collection of one post and no
credential, the endpoint answers "System Error: Missing API Key" under status
500, and `generateReport` produces no draft: it shows the alert "Report
generation failed." and the draft stays absent. -/
theorem generateReport_missing_key_no_draft :
    reportPOST none
        (some { posts := some [{ title := some "A", addedAt := some "2024-03-05T09:30:00.000Z" }],
                dateRange := some "Mar 2024 – Mar 2024" }) .failed =
        { status := 500, body := .report (some "System Error: Missing API Key"),
          upstreamCalls := 0 } ∧
      generateReportViaEndpoint fmtMonthYear none
        [{ title := some "A", addedAt := some "2024-03-05T09:30:00.000Z" }] none 1700000000000
        .failed =
        { reportDraft := none, requests := 1, alert := some "Report generation failed.",
          threw := false } := by
  decide

/-- Claim C23 as amended.  For every non-empty collection, when the credential
is missing the endpoint answers with status 500 and the text "System Error:
Missing API Key" without an upstream call, and when the credential is present
and the upstream request fails it answers with status 500 and the text "Failed
to generate report"; in both cases `generateReport` does not throw, shows the
alert "Report generation failed." and leaves the draft as it was before, so the
placeholder text of the endpoint does not become a draft. -/
theorem generateReport_on_failure (fmt : String → String) (apiKey : Option String)
    (posts : List Post) (reportDraft : Option ReportDraft) (now : Nat) (dateRange : Option String)
    (upstream : ReportUpstream) (hposts : posts ≠ [])
    (hfail : truthy apiKey = false ∨ upstream = .failed) :
    (truthy apiKey = false →
        reportPOST apiKey (some { posts := some posts, dateRange := dateRange }) upstream =
          { status := 500, body := .report (some "System Error: Missing API Key"),
            upstreamCalls := 0 }) ∧
      (truthy apiKey = true → upstream = .failed →
        (reportPOST apiKey (some { posts := some posts, dateRange := dateRange })
            upstream).status = 500 ∧
          (reportPOST apiKey (some { posts := some posts, dateRange := dateRange })
            upstream).body = .report (some "Failed to generate report")) ∧
      generateReportViaEndpoint fmt apiKey posts reportDraft now upstream =
        { reportDraft := reportDraft, requests := 1,
          alert := some "Report generation failed.", threw := false } := by
  obtain ⟨p, ps, rfl⟩ := List.exists_cons_of_ne_nil hposts
  refine ⟨?_, ?_, ?_⟩
  · intro hk
    simp [reportPOST, hk]
  · intro hk hu
    subst hu
    simp only [reportPOST, hk]
    cases buildThemeGroups [] (p :: ps) <;> simp
  · by_cases hk : truthy apiKey = true
    · have hu : upstream = .failed := by
        rcases hfail with h | h
        · rw [hk] at h
          exact absurd h (by decide)
        · exact h
      subst hu
      simp only [generateReportViaEndpoint, reportPOST, hk]
      cases buildThemeGroups [] (p :: ps) <;> simp [generateReport]
    · have hk' : truthy apiKey = false := by simpa using hk
      simp [generateReportViaEndpoint, reportPOST, hk', generateReport]

/-- Instance of `generateReport_on_failure`: one post, a credential, and an
upstream request that fails, with an older draft in place. -/
theorem generateReport_on_failure_witness :
    generateReportViaEndpoint fmtMonthYear (some "key")
        [{ title := some "A", addedAt := some "2024-03-05T09:30:00.000Z" }]
        (some { content := some "Older report", generatedAt := "2024-02-01T00:00:00.000Z",
                postCount := 3, dateRange := "Jan 2024 – Feb 2024" })
        1700000000000 .failed =
      { reportDraft := some { content := some "Older report",
                              generatedAt := "2024-02-01T00:00:00.000Z",
                              postCount := 3, dateRange := "Jan 2024 – Feb 2024" },
        requests := 1, alert := some "Report generation failed.", threw := false } :=
  (generateReport_on_failure fmtMonthYear (some "key")
    [{ title := some "A", addedAt := some "2024-03-05T09:30:00.000Z" }]
    (some { content := some "Older report", generatedAt := "2024-02-01T00:00:00.000Z",
            postCount := 3, dateRange := "Jan 2024 – Feb 2024" })
    1700000000000 none .failed (by decide) (Or.inr rfl)).2.2

/-! ## Feed normalisation (C24) -/

/-- Claim C24 is false as stated: for a raw item without title, link, date,
author and content the mapping yields a record in which these fields are
absent, not empty strings; only the snippet is the empty string. -/
theorem normalizeItem_missing_fields_stay_absent :
    normalizeItem {} =
        { title := none, link := none, pubDate := none, author := none, snippet := some "",
          content := none } ∧
      (normalizeItem {}).title ≠ some "" := by
  decide

/-- Claim C24 as amended.  For every list of raw items the mapping of
`fetchSubstackPosts` does not raise and yields one record per item in the same
order.  Title, link and publication date are copied as they are, so a missing
one stays absent; the author is `creator`, else `dc:creator`, and the content is
the encoded content when that is present and non-empty, else the plain content,
either of which may be absent; only the snippet is never absent, being the
empty string when the item has no snippet. -/
theorem fetchSubstackPosts_mapping (items : List RawItem) (item : RawItem) :
    fetchSubstackPosts (.returned items) = .returned (items.map normalizeItem) ∧
      (items.map normalizeItem).length = items.length ∧
      (normalizeItem item).title = item.title ∧
      (normalizeItem item).link = item.link ∧
      (normalizeItem item).pubDate = item.pubDate ∧
      (normalizeItem item).author = orOpt item.creator item.dcCreator ∧
      (normalizeItem item).snippet ≠ none ∧
      (truthy item.contentSnippet = false → (normalizeItem item).snippet = some "") ∧
      (truthy item.contentEncoded = true →
        (normalizeItem item).content = item.contentEncoded) ∧
      (truthy item.contentEncoded = false → (normalizeItem item).content = item.content) := by
  refine ⟨rfl, by simp, rfl, rfl, rfl, rfl, by simp [normalizeItem], ?_, ?_, ?_⟩
  · intro h
    cases hs : item.contentSnippet with
    | none => simp [normalizeItem, hs]
    | some t =>
      rw [hs] at h
      have ht : t = "" := by simpa [truthy] using h
      simp [normalizeItem, hs, ht]
  · intro h
    simp [normalizeItem, orOpt, h]
  · intro h
    simp [normalizeItem, orOpt, h]

/-- Instance of `fetchSubstackPosts_mapping`: an item with an empty encoded
content and a plain content. -/
theorem fetchSubstackPosts_mapping_witness :
    (normalizeItem { title := some "T", contentEncoded := some "", content := some "plain" }).content
      = some "plain" :=
  (fetchSubstackPosts_mapping []
    { title := some "T", contentEncoded := some "", content := some "plain" }).2.2.2.2.2.2.2.2.2
    (by decide)

/-! ## Cron entry point (C25) -/

/-- Claim C25.  The cron entry point answers 401 without fetching the feed if
and only if a cron secret is configured, the Authorization header is not
exactly "Bearer " followed by that secret, and the deployment mode is
production; in every other case it fetches the feed once and its status is not
401. -/
theorem cronGET_rejects_iff (cronSecret nodeEnv authHeader : Option String)
    (parsed : Outcome (List RawItem)) :
    (cronGET cronSecret nodeEnv authHeader parsed =
          { status := 401, body := .unauthorized, feedFetches := 0 } ↔
        truthy cronSecret = true ∧ authHeader ≠ some ("Bearer " ++ cronSecret.getD "") ∧
          nodeEnv = some "production") ∧
      (¬ (truthy cronSecret = true ∧ authHeader ≠ some ("Bearer " ++ cronSecret.getD "") ∧
            nodeEnv = some "production") →
        (cronGET cronSecret nodeEnv authHeader parsed).feedFetches = 1 ∧
          (cronGET cronSecret nodeEnv authHeader parsed).status ≠ 401) := by
  by_cases h : truthy cronSecret = true ∧ authHeader ≠ some ("Bearer " ++ cronSecret.getD "") ∧
      nodeEnv = some "production"
  · refine ⟨⟨fun _ => h, fun _ => by simp [cronGET, h]⟩, fun hn => absurd h hn⟩
  · have hfacts : (cronGET cronSecret nodeEnv authHeader parsed).feedFetches = 1 ∧
        (cronGET cronSecret nodeEnv authHeader parsed).status ≠ 401 := by
      simp only [cronGET, h, if_false]
      cases fetchSubstackPosts parsed with
      | threw e => simp
      | returned posts => by_cases hl : posts.length = 0 <;> simp [hl]
    refine ⟨⟨fun heq => ?_, fun hc => absurd hc h⟩, fun _ => hfacts⟩
    rw [heq] at hfacts
    exact absurd rfl hfacts.2

/-- Instance of `cronGET_rejects_iff`: in development a wrong bearer is let
through and the feed is fetched. -/
theorem cronGET_rejects_iff_witness :
    (cronGET (some "s3cret") (some "development") (some "Bearer wrong")
        (.returned [{ title := some "T" }])).feedFetches = 1 ∧
      (cronGET (some "s3cret") (some "development") (some "Bearer wrong")
        (.returned [{ title := some "T" }])).status ≠ 401 :=
  (cronGET_rejects_iff (some "s3cret") (some "development") (some "Bearer wrong")
    (.returned [{ title := some "T" }])).2 (by decide)

/-! ## Feed cache (C26) -/

theorem rssGET_of_fresh (cache : RssCache) (r : RssRequest)
    (h : ¬ Expired cache.lastFetchTime r.now) :
    rssGET cache r =
      (cache, { now := r.now, fetched := false, posts := some cache.cachedPosts }) := by
  unfold rssGET
  cases hl : cache.lastFetchTime with
  | none => exact absurd (Or.inl hl) h
  | some t =>
    have hlt : ¬ (t + 300000 < r.now) := fun hc => h (Or.inr ⟨t, hl, hc⟩)
    simp only [gt_iff_lt, decide_eq_true_eq]
    rw [if_neg]
    omega

theorem rssGET_of_expired_returned (cache : RssCache) (r : RssRequest) (posts : List FeedItem)
    (h : Expired cache.lastFetchTime r.now) (hf : r.feed = .returned posts) :
    rssGET cache r =
      ({ cachedPosts := posts, lastFetchTime := some r.now },
        { now := r.now, fetched := true, posts := some posts }) := by
  unfold rssGET
  rcases h with hl | ⟨t, hl, hlt⟩
  · simp [hl, hf]
  · simp only [hl, hf, gt_iff_lt, decide_eq_true_eq]
    rw [if_pos]
    omega

theorem rssGET_of_expired_threw (cache : RssCache) (r : RssRequest) (e : String)
    (h : Expired cache.lastFetchTime r.now) (hf : r.feed = .threw e) :
    rssGET cache r = (cache, { now := r.now, fetched := true, posts := none }) := by
  unfold rssGET
  rcases h with hl | ⟨t, hl, hlt⟩
  · simp [hl, hf]
  · simp only [hl, hf, gt_iff_lt, decide_eq_true_eq]
    rw [if_pos]
    omega

theorem rssRun_append_singleton (cache : RssCache) (reqs : List RssRequest) (r : RssRequest) :
    rssRun cache (reqs ++ [r]) =
      ((rssGET (rssRun cache reqs).1 r).1,
        (rssRun cache reqs).2 ++ [(rssGET (rssRun cache reqs).1 r).2]) := by
  simp [rssRun, List.foldl_append]

theorem lastSuccess_append_fetched (es : List RssEvent) (now : Nat) (posts : List FeedItem) :
    lastSuccess (es ++ [{ now := now, fetched := true, posts := some posts }]) =
      some (now, posts) := by
  induction es with
  | nil => rfl
  | cons a as ih => rw [List.cons_append, lastSuccess, ih]

theorem lastSuccess_append_other (es : List RssEvent) (e : RssEvent)
    (h : e.fetched = false ∨ e.posts = none) :
    lastSuccess (es ++ [e]) = lastSuccess es := by
  induction es with
  | nil =>
    rcases h with h | h <;> simp [lastSuccess, h]
  | cons a as ih => rw [List.cons_append, lastSuccess, ih, lastSuccess]

/-- The module variables are those left by the last successful fetch. -/
theorem rssRun_cache (reqs : List RssRequest) :
    (rssRun {} reqs).1 =
      match lastSuccess (rssRun {} reqs).2 with
      | some (t, posts) => { cachedPosts := posts, lastFetchTime := some t }
      | none => {} := by
  induction reqs using List.reverseRecOn with
  | nil => rfl
  | append_singleton reqs r ih =>
    rw [rssRun_append_singleton]
    simp only
    by_cases hexp : Expired (rssRun {} reqs).1.lastFetchTime r.now
    · cases hf : r.feed with
      | returned posts =>
        rw [rssGET_of_expired_returned _ r posts hexp hf, lastSuccess_append_fetched]
      | threw e =>
        rw [rssGET_of_expired_threw _ r e hexp hf, lastSuccess_append_other _ _ (Or.inr rfl)]
        exact ih
    · rw [rssGET_of_fresh _ r hexp, lastSuccess_append_other _ _ (Or.inl rfl)]
      exact ih

theorem rssRun_lastFetchTime (reqs : List RssRequest) :
    (rssRun {} reqs).1.lastFetchTime = (lastSuccess (rssRun {} reqs).2).map Prod.fst ∧
      ∀ t posts, lastSuccess (rssRun {} reqs).2 = some (t, posts) →
        (rssRun {} reqs).1.cachedPosts = posts := by
  have h := rssRun_cache reqs
  cases hl : lastSuccess (rssRun {} reqs).2 with
  | none =>
    rw [hl] at h
    simp [h]
  | some tp =>
    obtain ⟨t, posts⟩ := tp
    rw [hl] at h
    refine ⟨by simp [h], ?_⟩
    intro t' posts' heq
    simp only [Option.some.injEq, Prod.mk.injEq] at heq
    rw [h, ← heq.2]

theorem expired_iff_lastSuccess (reqs : List RssRequest) (now : Nat) :
    Expired (rssRun {} reqs).1.lastFetchTime now ↔
      lastSuccess (rssRun {} reqs).2 = none ∨
        ∃ t posts, lastSuccess (rssRun {} reqs).2 = some (t, posts) ∧ t + 300000 < now := by
  rw [Expired, (rssRun_lastFetchTime reqs).1]
  cases lastSuccess (rssRun {} reqs).2 with
  | none => simp
  | some tp =>
    obtain ⟨t, posts⟩ := tp
    simp

/-- Claim C26.  Over any sequence of requests handled one after the other
from a cold start, the next request calls the feed fetch if and only if no
fetch has succeeded before or more than 300000 ms have elapsed since the
request that made the last successful fetch.  A request that does not fetch
answers with exactly the posts stored by the last successful fetch and changes
nothing; a fetch that fails leaves the cached posts and the last-fetch time
unchanged; a fetch that succeeds stores its posts and the time of the request. -/
theorem rssGET_fetches_iff_expired (reqs : List RssRequest) (r : RssRequest) :
    ((rssGET (rssRun {} reqs).1 r).2.fetched = true ↔
        lastSuccess (rssRun {} reqs).2 = none ∨
          ∃ t posts, lastSuccess (rssRun {} reqs).2 = some (t, posts) ∧ t + 300000 < r.now) ∧
      ((rssGET (rssRun {} reqs).1 r).2.fetched = false →
        ∃ t posts, lastSuccess (rssRun {} reqs).2 = some (t, posts) ∧
          (rssGET (rssRun {} reqs).1 r).2.posts = some posts ∧
          (rssGET (rssRun {} reqs).1 r).1 = (rssRun {} reqs).1) ∧
      (∀ e, (rssGET (rssRun {} reqs).1 r).2.fetched = true → r.feed = .threw e →
        (rssGET (rssRun {} reqs).1 r).1 = (rssRun {} reqs).1 ∧
          (rssGET (rssRun {} reqs).1 r).2.posts = none) ∧
      (∀ posts, (rssGET (rssRun {} reqs).1 r).2.fetched = true → r.feed = .returned posts →
        (rssGET (rssRun {} reqs).1 r).1 = { cachedPosts := posts, lastFetchTime := some r.now } ∧
          (rssGET (rssRun {} reqs).1 r).2.posts = some posts) := by
  have hiff := expired_iff_lastSuccess reqs r.now
  by_cases hexp : Expired (rssRun {} reqs).1.lastFetchTime r.now
  · have hfetched : (rssGET (rssRun {} reqs).1 r).2.fetched = true := by
      cases hf : r.feed with
      | returned posts => rw [rssGET_of_expired_returned _ r posts hexp hf]
      | threw e => rw [rssGET_of_expired_threw _ r e hexp hf]
    refine ⟨⟨fun _ => hiff.1 hexp, fun _ => hfetched⟩, ?_, ?_, ?_⟩
    · intro hno
      rw [hfetched] at hno
      exact absurd hno (by decide)
    · intro e _ hf
      rw [rssGET_of_expired_threw _ r e hexp hf]
      exact ⟨rfl, rfl⟩
    · intro posts _ hf
      rw [rssGET_of_expired_returned _ r posts hexp hf]
      exact ⟨rfl, rfl⟩
  · have hstep := rssGET_of_fresh _ r hexp
    have hnot : ¬ (lastSuccess (rssRun {} reqs).2 = none ∨
        ∃ t posts, lastSuccess (rssRun {} reqs).2 = some (t, posts) ∧ t + 300000 < r.now) :=
      fun h => hexp (hiff.2 h)
    refine ⟨⟨?_, fun h => absurd h hnot⟩, ?_, ?_, ?_⟩
    · intro hf
      rw [hstep] at hf
      exact absurd hf (by simp)
    · intro _
      cases hl : lastSuccess (rssRun {} reqs).2 with
      | none => exact absurd (Or.inl hl) hnot
      | some tp =>
        obtain ⟨t, posts⟩ := tp
        refine ⟨t, posts, rfl, ?_, ?_⟩
        · rw [hstep, (rssRun_lastFetchTime reqs).2 t posts hl]
        · rw [hstep]
    · intro e hf
      rw [hstep] at hf
      exact absurd hf (by simp)
    · intro posts hf
      rw [hstep] at hf
      exact absurd hf (by simp)

/-- Instance of `rssGET_fetches_iff_expired`: after a fetch at 1000 ms and a
failed fetch at 400000 ms, a request at 400500 ms fetches again. -/
theorem rssGET_fetches_iff_expired_witness :
    (rssGET (rssRun {}
        [{ now := 1000, feed := .returned [{ title := some "A" }] },
          { now := 400000, feed := .threw "timeout" }]).1
      { now := 400500, feed := .returned [{ title := some "B" }] }).2.fetched = true :=
  (rssGET_fetches_iff_expired
    [{ now := 1000, feed := .returned [{ title := some "A" }] },
      { now := 400000, feed := .threw "timeout" }]
    { now := 400500, feed := .returned [{ title := some "B" }] }).1.2
    (Or.inr ⟨1000, [{ title := some "A" }], by decide, by decide⟩)

end ContrarianBrief
